import Mathlib

/-!
Verification development for the lift-ai discrete-time elevator simulation.

Shallow embedding of the core simulation (src/core/passenger.py, elevator.py,
metrics.py, dispatcher.py, environment.py) into Lean 4.

Modelling conventions:
- Python unbounded ints become Lean `Int` (times, floors, capacities); ids,
  which are generated as 1, 2, ... are `Nat`; list lengths are `Nat` and are
  cast to `Int` where the source compares them with an `int` field.
- Python floats become exact rationals (`Rat`); the reward arithmetic never
  depends on rounding in any claim considered here.
- The dict `self.passengers` (int id -> Passenger, sequential insertion,
  iteration in insertion order) becomes a `List Passenger` kept in insertion
  order; lookup is first-match by id, update rewrites the entries with the
  given id.  For registries with no duplicate ids (the only ones the engine
  ever builds) this coincides with the dict semantics.
- The engine's RNG (`self.rng`) is abstracted by an oracle argument to `step`:
  per second an `Option (Int × Int)` saying whether a passenger spawns and
  with which origin/destination floors.  Real draws always satisfy
  1 ≤ origin, dest ≤ floors and origin ≠ dest; the theorems below quantify
  over all oracle values, a superset of the real traces.
- A raised ValueError is modelled explicitly (Python mutates the environment
  in place, so the state at the raise is what the caller observes afterwards).
-/

/-- DoorState from src/core/elevator.py (`OPEN`/`CLOSED`). -/
inductive DoorState where
  | opened
  | closed
  deriving DecidableEq

/-- MoveState from src/core/elevator.py (`IDLE`/`MOVING`/`DWELL`). -/
inductive MoveState where
  | idle
  | moving
  | dwell
  deriving DecidableEq

/-- Passenger from src/core/passenger.py. -/
structure Passenger where
  id : Nat
  appear_time : Int
  origin_floor : Int
  dest_floor : Int
  assigned_elevator : Option Nat := none
  board_time : Option Int := none
  arrive_time : Option Int := none
  deriving DecidableEq

/-- Passenger.waiting_time: `board_time - appear_time`, None until boarded. -/
def Passenger.waiting_time (p : Passenger) : Option Int :=
  match p.board_time with
  | none => none
  | some b => some (b - p.appear_time)

/-- Passenger.ride_time: `arrive_time - board_time`, None until both set. -/
def Passenger.ride_time (p : Passenger) : Option Int :=
  match p.board_time, p.arrive_time with
  | some b, some a => some (a - b)
  | _, _ => none

/-- Elevator from src/core/elevator.py with the source's field defaults. -/
structure Elevator where
  id : Nat
  capacity : Int := 12
  current_floor : Int := 1
  direction : Int := 0
  door_state : DoorState := .closed
  move_state : MoveState := .idle
  target_queue : List Int := []
  passengers : List Nat := []
  dwell_remaining : Int := 0
  deriving DecidableEq

/-- Elevator.is_full: `len(self.passengers) >= self.capacity`. -/
def Elevator.is_full (e : Elevator) : Bool :=
  decide ((e.passengers.length : Int) ≥ e.capacity)

/-- Elevator.enqueue_stop: when full and not force, ignore; otherwise append
the floor to the queue if absent. -/
def Elevator.enqueue_stop (e : Elevator) (floor : Int) (force : Bool) : Elevator :=
  if e.is_full = true ∧ force = false then e
  else if floor ∈ e.target_queue then e
  else { e with target_queue := e.target_queue ++ [floor] }

/-- Elevator.begin_dwell. -/
def Elevator.begin_dwell (e : Elevator) (dwell_time : Int) : Elevator :=
  { e with move_state := .dwell, door_state := .opened,
           dwell_remaining := dwell_time, direction := 0 }

/-- Elevator.tick_dwell: clamp the countdown at 0, closing up when it hits 0. -/
def Elevator.tick_dwell (e : Elevator) (dt : Int) : Elevator :=
  let r := max 0 (e.dwell_remaining - dt)
  if r = 0 then { e with dwell_remaining := r, move_state := .idle, door_state := .closed }
  else { e with dwell_remaining := r }

/-- Elevator.move_toward: one floor toward the target (no-op at the target). -/
def Elevator.move_toward (e : Elevator) (target_floor : Int) : Elevator :=
  if target_floor = e.current_floor then e
  else
    let d : Int := if target_floor > e.current_floor then 1 else -1
    { e with move_state := .moving, direction := d, current_floor := e.current_floor + d }

/-- MetricsCollector from src/core/metrics.py.  The source file in src/ holds
wait_times, ride_times, completed and rejected; the unserved counter that
src/core/environment.py reads and updates is missing from it. -/
structure MetricsCollector where
  wait_times : List Int := []
  ride_times : List Int := []
  completed : Nat := 0
  rejected : Nat := 0
  /-- Modelled from the spec: the `unserved` counter of the MetricsCollector
  ("counters for completed, rejected, and unserved passengers").  It is
  read by `LiftSimEnvironment.step` and updated through `record_unserved`,
  but both are absent from src/core/metrics.py. -/
  unserved : Nat := 0
  deriving DecidableEq

/-- MetricsCollector.record_completion. -/
def MetricsCollector.record_completion (m : MetricsCollector) (wait ride : Int) :
    MetricsCollector :=
  { m with wait_times := m.wait_times ++ [wait],
           ride_times := m.ride_times ++ [ride],
           completed := m.completed + 1 }

/-- MetricsCollector.record_rejection. -/
def MetricsCollector.record_rejection (m : MetricsCollector) : MetricsCollector :=
  { m with rejected := m.rejected + 1 }

/-- Modelled from the spec: `record_unserved`, called by
`LiftSimEnvironment._finalize_unserved` but missing from src/core/metrics.py;
per the spec the collector keeps a counter of unserved passengers, so the
call adds the given count to it. -/
def MetricsCollector.record_unserved (m : MetricsCollector) (count : Nat) :
    MetricsCollector :=
  { m with unserved := m.unserved + count }

/-- SimulationConfig from src/core/environment.py with the source defaults
(floats modelled as exact rationals). -/
structure SimulationConfig where
  floors : Int := 18
  elevators : Int := 2
  capacity : Int := 12
  floor_height_m : Rat := 3
  speed_mps : Rat := 3/2
  dwell_time_s : Int := 5
  spawn_prob : Rat := 1/20
  horizon_s : Int := 3600
  seed : Option Int := none
  deriving DecidableEq

/-- LiftSimEnvironment's mutable state (`self.time`, `self.passengers`,
`self.elevators`, `self.metrics`, `self._next_passenger_id`,
`self._finalized`), together with the immutable config.  The dispatcher is
the default `ETADispatcher`; the RNG is abstracted (see module docstring). -/
structure LiftSimEnvironment where
  config : SimulationConfig
  time : Int
  passengers : List Passenger
  elevators : List Elevator
  metrics : MetricsCollector
  next_passenger_id : Nat
  finalized : Bool
  deriving DecidableEq

/-- LiftSimEnvironment.__init__ body: fresh clock, empty registry, fleet of
`range(config.elevators)` cars with ids 1.. and the configured capacity. -/
def LiftSimEnvironment.init (config : SimulationConfig) : LiftSimEnvironment :=
  { config := config
    time := 0
    passengers := []
    elevators := (List.range config.elevators.toNat).map
      (fun i => { id := i + 1, capacity := config.capacity })
    metrics := {}
    next_passenger_id := 1
    finalized := false }

/-- Error type for construction.  `LiftSimEnvironment.__init__` contains no
validation and no raise statement, so `create` below has no error branch;
the `Except` return type records that absence so that claims about
construction-time validation can be stated. -/
inductive ConfigError where
  | invalid
  deriving DecidableEq

/-- Construction of the engine (`LiftSimEnvironment(config)`):  the source
constructor performs no validation of the configuration, so it always
succeeds. -/
def LiftSimEnvironment.create (config : SimulationConfig) :
    Except ConfigError LiftSimEnvironment :=
  .ok (LiftSimEnvironment.init config)

/-- LiftSimEnvironment.reset: clears everything back to the initial state
 (the RNG reseed is outside the abstracted state). -/
def LiftSimEnvironment.reset (s : LiftSimEnvironment) : LiftSimEnvironment :=
  LiftSimEnvironment.init s.config

/-- Lookup in the passenger registry (`self.passengers[pid]`). -/
def LiftSimEnvironment.findPassenger (s : LiftSimEnvironment) (pid : Nat) : Option Passenger :=
  s.passengers.find? (fun p => p.id == pid)

/-- In-place mutation of the registered passenger with the given id. -/
def LiftSimEnvironment.updatePassenger (s : LiftSimEnvironment) (pid : Nat)
    (f : Passenger → Passenger) : LiftSimEnvironment :=
  { s with passengers := s.passengers.map (fun p => if p.id = pid then f p else p) }

/-- In-place mutation of elevator number `i` (0-based fleet position). -/
def LiftSimEnvironment.setElev (s : LiftSimEnvironment) (i : Nat) (e : Elevator) :
    LiftSimEnvironment :=
  { s with elevators := s.elevators.set i e }

/-- LiftSimEnvironment._spawn_passengers with the RNG abstracted into an
oracle: `none` models a second where `rng.random() > spawn_prob`, and
`some (origin, dest)` models a spawn with those uniformly drawn floors. -/
def LiftSimEnvironment.spawnPassengers (s : LiftSimEnvironment)
    (spawn : Option (Int × Int)) : LiftSimEnvironment :=
  match spawn with
  | none => s
  | some od =>
    { s with
      next_passenger_id := s.next_passenger_id + 1
      passengers := s.passengers ++
        [{ id := s.next_passenger_id, appear_time := s.time,
           origin_floor := od.1, dest_floor := od.2 }] }

/-- Distance key used by ETADispatcher._pick_elevator:
`abs(e.current_floor - origin_floor)`. -/
def floorDist (e : Elevator) (origin : Int) : Int :=
  |e.current_floor - origin|

/-- The fold performed by Python's `min(candidates, key=...)`: keep the
running best, replacing it only on a strictly smaller key, so the first
minimum wins. -/
def pickFold (origin : Int) (c : Nat × Elevator) (l : List (Nat × Elevator)) :
    Nat × Elevator :=
  l.foldl (fun best x => if floorDist x.2 origin < floorDist best.2 origin then x else best) c

/-- ETADispatcher._pick_elevator, returning the 0-based fleet position of the
chosen elevator: among the non-full elevators, the first one with minimal
distance to the origin floor (`None` when every elevator is full). -/
def pickElevatorIdx (elevators : List Elevator) (origin : Int) : Option Nat :=
  match elevators.enum.filter (fun x => !x.2.is_full) with
  | [] => none
  | c :: l => some (pickFold origin c l).1

/-- One iteration of the loop in ETADispatcher.assign, for the passenger with
the given id: skip if already assigned, otherwise pick the best elevator,
record the assignment and (the chosen elevator never being full) enqueue a
stop at the passenger's origin floor. -/
def assignPassenger (s : LiftSimEnvironment) (pid : Nat) : LiftSimEnvironment :=
  match s.findPassenger pid with
  | none => s
  | some p =>
    if p.assigned_elevator ≠ none then s
    else
      match pickElevatorIdx s.elevators p.origin_floor with
      | none => s
      | some i =>
        match s.elevators.get? i with
        | none => s
        | some best =>
          let s1 := s.updatePassenger pid (fun q => { q with assigned_elevator := some best.id })
          if best.is_full then s1
          else s1.setElev i (best.enqueue_stop p.origin_floor false)

/-- ETADispatcher.assign over the ids of the passengers handed to it. -/
def ETADispatcher.assign (s : LiftSimEnvironment) (newIds : List Nat) : LiftSimEnvironment :=
  newIds.foldl assignPassenger s

/-- LiftSimEnvironment._dispatch_new: hand every unassigned registered
passenger to the dispatcher. -/
def LiftSimEnvironment.dispatchNew (s : LiftSimEnvironment) : LiftSimEnvironment :=
  ETADispatcher.assign s
    ((s.passengers.filter (fun p => p.assigned_elevator.isNone)).map (fun p => p.id))

/-- Per-elevator action application inside LiftSimEnvironment.apply_actions:
`None`/0 targets are skipped; an in-range target on a non-full elevator is
enqueued (without force). -/
def applyOne (cfg : SimulationConfig) (e : Elevator) (target : Option Int) : Elevator :=
  match target with
  | none => e
  | some t =>
    if t = 0 then e
    else if (1 ≤ t ∧ t ≤ cfg.floors) ∧ e.is_full = false then e.enqueue_stop t false
    else e

/-- LiftSimEnvironment.apply_actions: a length mismatch raises ValueError
before any elevator is touched; otherwise each elevator is zipped with its
action. -/
def LiftSimEnvironment.applyActions (s : LiftSimEnvironment)
    (actions : List (Option Int)) : Except Unit LiftSimEnvironment :=
  if actions.length ≠ s.elevators.length then .error ()
  else .ok { s with
    elevators := (s.elevators.zip actions).map (fun pr => applyOne s.config pr.1 pr.2) }

/-- One drop-off inside LiftSimEnvironment._process_stop: set the arrival
time, take the passenger out of the car, and if wait and ride times are both
defined record a completion and remember the passenger as completed this
second.  (An onboard id always resolves in the registry in any state the
engine builds; a failed lookup would be a KeyError in the source.) -/
def dropOne (i : Nat) (st : LiftSimEnvironment × List Passenger) (pid : Nat) :
    LiftSimEnvironment × List Passenger :=
  let s := st.1
  match s.findPassenger pid with
  | none => st
  | some p0 =>
    let p := { p0 with arrive_time := some s.time }
    let s1 := s.updatePassenger pid (fun q => { q with arrive_time := some s.time })
    let s2 := match s1.elevators.get? i with
      | some e => s1.setElev i { e with passengers := e.passengers.erase pid }
      | none => s1
    match p.waiting_time, p.ride_time with
    | some w, some r =>
      ({ s2 with metrics := s2.metrics.record_completion w r }, st.2 ++ [p])
    | _, _ => (s2, st.2)

/-- One pick-up inside LiftSimEnvironment._process_stop: a full car records a
rejection and clears the passenger's assignment; otherwise the passenger
boards (board_time set, id appended to the car) and the destination is
enqueued — without force, exactly as in the source. -/
def pickupOne (i : Nat) (st : LiftSimEnvironment × List Passenger) (p : Passenger) :
    LiftSimEnvironment × List Passenger :=
  let s := st.1
  match s.elevators.get? i with
  | none => st
  | some e =>
    if e.is_full then
      ({ s.updatePassenger p.id (fun q => { q with assigned_elevator := none }) with
         metrics := s.metrics.record_rejection }, st.2)
    else
      let s1 := s.updatePassenger p.id (fun q => { q with board_time := some s.time })
      let s2 := s1.setElev i { e with passengers := e.passengers ++ [p.id] }
      let s3 := match s2.elevators.get? i with
        | some e2 => s2.setElev i (e2.enqueue_stop p.dest_floor false)
        | none => s2
      (s3, st.2)

/-- LiftSimEnvironment._process_stop for the elevator at fleet position `i`:
drop off every onboard passenger whose destination is the current floor,
then pick up, in registry order, the passengers assigned to this elevator
who wait unboarded at the current floor. -/
def LiftSimEnvironment.processStop (s : LiftSimEnvironment) (i : Nat)
    (completed : List Passenger) : LiftSimEnvironment × List Passenger :=
  match s.elevators.get? i with
  | none => (s, completed)
  | some e =>
    let toDrop := e.passengers.filter (fun pid =>
      match s.findPassenger pid with
      | some p => p.dest_floor == e.current_floor
      | none => false)
    let st1 := toDrop.foldl (dropOne i) (s, completed)
    let waiting := st1.1.passengers.filter (fun p =>
      p.assigned_elevator == some e.id && p.board_time.isNone &&
        p.origin_floor == e.current_floor)
    waiting.foldl (pickupOne i) st1

/-- One iteration of the loop in LiftSimEnvironment._move_elevators: dwell
countdown, or forced idle on an empty queue, or stop processing (with queue
pop and a fresh dwell) on arrival, or one floor of travel. -/
def LiftSimEnvironment.moveOne (st : LiftSimEnvironment × List Passenger) (i : Nat) :
    LiftSimEnvironment × List Passenger :=
  let s := st.1
  match s.elevators.get? i with
  | none => st
  | some e =>
    if e.move_state = .dwell then (s.setElev i (e.tick_dwell 1), st.2)
    else
      match e.target_queue with
      | [] => (s.setElev i { e with direction := 0, move_state := .idle }, st.2)
      | target :: _ =>
        if e.current_floor = target then
          let st1 := s.processStop i st.2
          let s2 := match st1.1.elevators.get? i with
            | some e1 =>
              st1.1.setElev i
                (Elevator.begin_dwell { e1 with target_queue := e1.target_queue.drop 1 }
                  s.config.dwell_time_s)
            | none => st1.1
          (s2, st1.2)
        else (s.setElev i (e.move_toward target), st.2)

/-- LiftSimEnvironment._move_elevators, collecting the passengers completed
this second. -/
def LiftSimEnvironment.moveElevators (s : LiftSimEnvironment) :
    LiftSimEnvironment × List Passenger :=
  (List.range s.elevators.length).foldl LiftSimEnvironment.moveOne (s, [])

/-- LiftSimEnvironment._finalize_unserved: once, count the registered
passengers who never arrived, record them as unserved (when non-zero) and
latch `_finalized`; later calls return 0 and change nothing. -/
def LiftSimEnvironment.finalizeUnserved (s : LiftSimEnvironment) :
    LiftSimEnvironment × Nat :=
  if s.finalized then (s, 0)
  else
    let unserved := (s.passengers.filter (fun p => p.arrive_time.isNone)).length
    let m := if 0 < unserved then s.metrics.record_unserved unserved else s.metrics
    ({ s with metrics := m, finalized := true }, unserved)

/-- Number of registered passengers that have not boarded (the
`waiting_count` of LiftSimEnvironment._compute_reward). -/
def LiftSimEnvironment.waitingCount (s : LiftSimEnvironment) : Nat :=
  (s.passengers.filter (fun p => p.board_time.isNone)).length

/-- LiftSimEnvironment._compute_reward.  `deltaCompleted` is accepted and
ignored, as in the source.  Floats are modelled as exact rationals;
`p.waiting_time or 0` maps None to 0 (and 0 to 0, the same value). -/
def LiftSimEnvironment.computeReward (s : LiftSimEnvironment)
    (deltaCompleted deltaRejected deltaUnserved : Nat)
    (completedPassengers : List Passenger) : Rat :=
  let base : Rat := 0 - 0.015 * (s.waitingCount : Rat) - 2 * (deltaRejected : Rat)
    - 20 * (deltaUnserved : Rat)
  completedPassengers.foldl
    (fun r p => r + 9 - 0.005 * ((p.waiting_time.getD 0 : Int) : Rat)
      - 0.002 * ((p.ride_time.getD 0 : Int) : Rat))
    base

/-- Result of one `step` call.  `ok` carries the resulting environment, the
reward, the terminated flag and (exposed for specification purposes; it is a
local variable of the source's step) the passengers completed during the
call.  `invalidActions` is the ValueError raised by apply_actions: Python
mutates the environment in place, so the carried state — with the spawn and
dispatch sub-phases already applied — is what the caller observes after the
raise. -/
inductive StepResult where
  | ok (s : LiftSimEnvironment) (reward : Rat) (terminated : Bool)
      (completedThisStep : List Passenger)
  | invalidActions (s : LiftSimEnvironment)
  deriving DecidableEq

/-- The environment state carried by a step result (the caller-visible state
after the call, whether it returned or raised). -/
def StepResult.stateOf : StepResult → LiftSimEnvironment
  | .ok s _ _ _ => s
  | .invalidActions s => s

/-- Whether the step raised the apply_actions ValueError. -/
def StepResult.isError : StepResult → Bool
  | .ok _ _ _ _ => false
  | .invalidActions _ => true

/-- The `if actions is not None: self.apply_actions(actions)` line of step. -/
def LiftSimEnvironment.applyActionsOpt (s : LiftSimEnvironment)
    (actions : Option (List (Option Int))) : Except Unit LiftSimEnvironment :=
  match actions with
  | none => .ok s
  | some a => s.applyActions a

/-- The pre-horizon body of LiftSimEnvironment.step: spawn, dispatch, apply
the external actions (length-checked; a ValueError propagates with the
already-mutated state), move the fleet, advance the clock by one, finalize
when the horizon is reached, and compute the reward from this second's
deltas (the `prev_*` counters are read before the sub-phases run, i.e. they
are `s.metrics`). -/
def LiftSimEnvironment.stepMain (s : LiftSimEnvironment) (spawn : Option (Int × Int))
    (actions : Option (List (Option Int))) : StepResult :=
  let s2 := (s.spawnPassengers spawn).dispatchNew
  match s2.applyActionsOpt actions with
  | .error _ => .invalidActions s2
  | .ok s3 =>
    let mv := s3.moveElevators
    let s5 := { mv.1 with time := mv.1.time + 1 }
    let terminated : Bool := decide (s5.config.horizon_s ≤ s5.time)
    let fu := if terminated then s5.finalizeUnserved else (s5, 0)
    let s6 := fu.1
    .ok s6
      (s6.computeReward (s6.metrics.completed - s.metrics.completed)
        (s6.metrics.rejected - s.metrics.rejected) fu.2 mv.2)
      terminated mv.2

/-- LiftSimEnvironment.step.  At or past the horizon: finalize and return
terminated with the clock untouched; otherwise run the per-second body. -/
def LiftSimEnvironment.step (s : LiftSimEnvironment) (spawn : Option (Int × Int))
    (actions : Option (List (Option Int))) : StepResult :=
  if s.config.horizon_s ≤ s.time then
    let fu := s.finalizeUnserved
    .ok fu.1 (fu.1.computeReward 0 0 fu.2 []) true []
  else s.stepMain spawn actions

/-- States reachable by constructing the engine and then making arbitrary
`step` (with arbitrary spawn-oracle values and action arguments) and `reset`
calls; a raising step call leaves its partially mutated state behind, which
is also reachable. -/
inductive Reachable (cfg : SimulationConfig) : LiftSimEnvironment → Prop where
  | init : Reachable cfg (LiftSimEnvironment.init cfg)
  | step (s : LiftSimEnvironment) (spawn : Option (Int × Int))
      (actions : Option (List (Option Int))) :
      Reachable cfg s → Reachable cfg ((s.step spawn actions).stateOf)
  | reset (s : LiftSimEnvironment) : Reachable cfg s → Reachable cfg s.reset

/-! ### Frame lemmas: which fields each sub-phase leaves untouched -/

theorem foldl_preserve {α β : Type _} (P : α → Prop) (f : α → β → α)
    (h : ∀ a b, P a → P (f a b)) : ∀ (l : List β) (a : α), P a → P (l.foldl f a) := by
  intro l
  induction l with
  | nil => intro a ha; exact ha
  | cons x xs ih => intro a ha; exact ih _ (h _ _ ha)

theorem foldl_fix {α β γ : Type _} (g : α → γ) (f : α → β → α)
    (h : ∀ a b, g (f a b) = g a) (l : List β) (a : α) : g (l.foldl f a) = g a := by
  induction l generalizing a with
  | nil => rfl
  | cons x xs ih => rw [List.foldl_cons, ih, h]

@[simp] theorem updatePassenger_config (s : LiftSimEnvironment) (pid : Nat)
    (f : Passenger → Passenger) : (s.updatePassenger pid f).config = s.config := rfl

@[simp] theorem updatePassenger_time (s : LiftSimEnvironment) (pid : Nat)
    (f : Passenger → Passenger) : (s.updatePassenger pid f).time = s.time := rfl

@[simp] theorem updatePassenger_metrics (s : LiftSimEnvironment) (pid : Nat)
    (f : Passenger → Passenger) : (s.updatePassenger pid f).metrics = s.metrics := rfl

@[simp] theorem updatePassenger_finalized (s : LiftSimEnvironment) (pid : Nat)
    (f : Passenger → Passenger) : (s.updatePassenger pid f).finalized = s.finalized := rfl

@[simp] theorem updatePassenger_elevators (s : LiftSimEnvironment) (pid : Nat)
    (f : Passenger → Passenger) : (s.updatePassenger pid f).elevators = s.elevators := rfl

@[simp] theorem setElev_config (s : LiftSimEnvironment) (i : Nat) (e : Elevator) :
    (s.setElev i e).config = s.config := rfl

@[simp] theorem setElev_time (s : LiftSimEnvironment) (i : Nat) (e : Elevator) :
    (s.setElev i e).time = s.time := rfl

@[simp] theorem setElev_metrics (s : LiftSimEnvironment) (i : Nat) (e : Elevator) :
    (s.setElev i e).metrics = s.metrics := rfl

@[simp] theorem setElev_finalized (s : LiftSimEnvironment) (i : Nat) (e : Elevator) :
    (s.setElev i e).finalized = s.finalized := rfl

@[simp] theorem setElev_passengers (s : LiftSimEnvironment) (i : Nat) (e : Elevator) :
    (s.setElev i e).passengers = s.passengers := rfl

@[simp] theorem setElev_elevators (s : LiftSimEnvironment) (i : Nat) (e : Elevator) :
    (s.setElev i e).elevators = s.elevators.set i e := rfl

@[simp] theorem spawnPassengers_config (s : LiftSimEnvironment) (sp : Option (Int × Int)) :
    (s.spawnPassengers sp).config = s.config := by cases sp <;> rfl

@[simp] theorem spawnPassengers_time (s : LiftSimEnvironment) (sp : Option (Int × Int)) :
    (s.spawnPassengers sp).time = s.time := by cases sp <;> rfl

@[simp] theorem spawnPassengers_metrics (s : LiftSimEnvironment) (sp : Option (Int × Int)) :
    (s.spawnPassengers sp).metrics = s.metrics := by cases sp <;> rfl

@[simp] theorem spawnPassengers_finalized (s : LiftSimEnvironment) (sp : Option (Int × Int)) :
    (s.spawnPassengers sp).finalized = s.finalized := by cases sp <;> rfl

@[simp] theorem spawnPassengers_elevators (s : LiftSimEnvironment) (sp : Option (Int × Int)) :
    (s.spawnPassengers sp).elevators = s.elevators := by cases sp <;> rfl

theorem assignPassenger_config (s : LiftSimEnvironment) (pid : Nat) :
    (assignPassenger s pid).config = s.config := by
  unfold assignPassenger
  repeat' split
  all_goals first | rfl | simp

theorem assignPassenger_time (s : LiftSimEnvironment) (pid : Nat) :
    (assignPassenger s pid).time = s.time := by
  unfold assignPassenger
  repeat' split
  all_goals first | rfl | simp

theorem assignPassenger_metrics (s : LiftSimEnvironment) (pid : Nat) :
    (assignPassenger s pid).metrics = s.metrics := by
  unfold assignPassenger
  repeat' split
  all_goals first | rfl | simp

theorem assignPassenger_finalized (s : LiftSimEnvironment) (pid : Nat) :
    (assignPassenger s pid).finalized = s.finalized := by
  unfold assignPassenger
  repeat' split
  all_goals first | rfl | simp

theorem assignPassenger_elev_length (s : LiftSimEnvironment) (pid : Nat) :
    (assignPassenger s pid).elevators.length = s.elevators.length := by
  unfold assignPassenger
  repeat' split
  all_goals first | rfl | simp

theorem dispatchNew_config (s : LiftSimEnvironment) : s.dispatchNew.config = s.config :=
  foldl_fix (fun t => t.config) assignPassenger (fun a b => assignPassenger_config a b) _ s

theorem dispatchNew_time (s : LiftSimEnvironment) : s.dispatchNew.time = s.time :=
  foldl_fix (fun t => t.time) assignPassenger (fun a b => assignPassenger_time a b) _ s

theorem dispatchNew_metrics (s : LiftSimEnvironment) : s.dispatchNew.metrics = s.metrics :=
  foldl_fix (fun t => t.metrics) assignPassenger (fun a b => assignPassenger_metrics a b) _ s

theorem dispatchNew_finalized (s : LiftSimEnvironment) :
    s.dispatchNew.finalized = s.finalized :=
  foldl_fix (fun t => t.finalized) assignPassenger
    (fun a b => assignPassenger_finalized a b) _ s

theorem dispatchNew_elev_length (s : LiftSimEnvironment) :
    s.dispatchNew.elevators.length = s.elevators.length :=
  foldl_fix (fun t => t.elevators.length) assignPassenger
    (fun a b => assignPassenger_elev_length a b) _ s

theorem applyActions_ok (s s' : LiftSimEnvironment) (a : List (Option Int))
    (h : s.applyActions a = .ok s') :
    s'.config = s.config ∧ s'.time = s.time ∧ s'.metrics = s.metrics ∧
      s'.finalized = s.finalized ∧ s'.passengers = s.passengers ∧
      s'.elevators.length = s.elevators.length := by
  unfold LiftSimEnvironment.applyActions at h
  split at h
  · exact absurd h (by simp)
  · rename_i hlen
    simp only [Except.ok.injEq] at h
    subst h
    refine ⟨rfl, rfl, rfl, rfl, rfl, ?_⟩
    simp only [List.length_map, List.length_zip]
    omega

theorem applyActions_error (s : LiftSimEnvironment) (a : List (Option Int))
    (h : a.length ≠ s.elevators.length) : s.applyActions a = .error () := by
  unfold LiftSimEnvironment.applyActions
  simp [h]

theorem dropOne_config (i : Nat) (st : LiftSimEnvironment × List Passenger) (pid : Nat) :
    (dropOne i st pid).1.config = st.1.config := by
  unfold dropOne
  dsimp only
  repeat' split
  all_goals first | rfl | simp

theorem dropOne_time (i : Nat) (st : LiftSimEnvironment × List Passenger) (pid : Nat) :
    (dropOne i st pid).1.time = st.1.time := by
  unfold dropOne
  dsimp only
  repeat' split
  all_goals first | rfl | simp

theorem dropOne_finalized (i : Nat) (st : LiftSimEnvironment × List Passenger) (pid : Nat) :
    (dropOne i st pid).1.finalized = st.1.finalized := by
  unfold dropOne
  dsimp only
  repeat' split
  all_goals first | rfl | simp

theorem dropOne_unserved (i : Nat) (st : LiftSimEnvironment × List Passenger) (pid : Nat) :
    (dropOne i st pid).1.metrics.unserved = st.1.metrics.unserved := by
  unfold dropOne
  dsimp only
  repeat' split
  all_goals first | rfl | simp [MetricsCollector.record_completion]

theorem dropOne_rejected (i : Nat) (st : LiftSimEnvironment × List Passenger) (pid : Nat) :
    (dropOne i st pid).1.metrics.rejected = st.1.metrics.rejected := by
  unfold dropOne
  dsimp only
  repeat' split
  all_goals first | rfl | simp [MetricsCollector.record_completion]

theorem dropOne_elev_length (i : Nat) (st : LiftSimEnvironment × List Passenger) (pid : Nat) :
    (dropOne i st pid).1.elevators.length = st.1.elevators.length := by
  unfold dropOne
  dsimp only
  repeat' split
  all_goals first | rfl | simp

theorem dropOne_passengers_length (i : Nat) (st : LiftSimEnvironment × List Passenger)
    (pid : Nat) : (dropOne i st pid).1.passengers.length = st.1.passengers.length := by
  unfold dropOne
  dsimp only
  repeat' split
  all_goals first | rfl | simp [LiftSimEnvironment.updatePassenger]

theorem pickupOne_config (i : Nat) (st : LiftSimEnvironment × List Passenger) (p : Passenger) :
    (pickupOne i st p).1.config = st.1.config := by
  unfold pickupOne
  dsimp only
  repeat' split
  all_goals first | rfl | simp

theorem pickupOne_time (i : Nat) (st : LiftSimEnvironment × List Passenger) (p : Passenger) :
    (pickupOne i st p).1.time = st.1.time := by
  unfold pickupOne
  dsimp only
  repeat' split
  all_goals first | rfl | simp

theorem pickupOne_finalized (i : Nat) (st : LiftSimEnvironment × List Passenger)
    (p : Passenger) : (pickupOne i st p).1.finalized = st.1.finalized := by
  unfold pickupOne
  dsimp only
  repeat' split
  all_goals first | rfl | simp

theorem pickupOne_unserved (i : Nat) (st : LiftSimEnvironment × List Passenger)
    (p : Passenger) : (pickupOne i st p).1.metrics.unserved = st.1.metrics.unserved := by
  unfold pickupOne
  dsimp only
  repeat' split
  all_goals first | rfl | simp [MetricsCollector.record_rejection]

theorem pickupOne_completed (i : Nat) (st : LiftSimEnvironment × List Passenger)
    (p : Passenger) : (pickupOne i st p).1.metrics.completed = st.1.metrics.completed := by
  unfold pickupOne
  dsimp only
  repeat' split
  all_goals first | rfl | simp [MetricsCollector.record_rejection]

theorem pickupOne_elev_length (i : Nat) (st : LiftSimEnvironment × List Passenger)
    (p : Passenger) : (pickupOne i st p).1.elevators.length = st.1.elevators.length := by
  unfold pickupOne
  dsimp only
  repeat' split
  all_goals first | rfl | simp

theorem pickupOne_passengers_length (i : Nat) (st : LiftSimEnvironment × List Passenger)
    (p : Passenger) : (pickupOne i st p).1.passengers.length = st.1.passengers.length := by
  unfold pickupOne
  dsimp only
  repeat' split
  all_goals first | rfl | simp [LiftSimEnvironment.updatePassenger]

theorem processStop_config (s : LiftSimEnvironment) (i : Nat) (acc : List Passenger) :
    (s.processStop i acc).1.config = s.config := by
  unfold LiftSimEnvironment.processStop
  split
  · rfl
  · rw [foldl_fix (fun st => st.1.config) _ (fun a b => pickupOne_config i a b),
        foldl_fix (fun st => st.1.config) _ (fun a b => dropOne_config i a b)]

theorem processStop_time (s : LiftSimEnvironment) (i : Nat) (acc : List Passenger) :
    (s.processStop i acc).1.time = s.time := by
  unfold LiftSimEnvironment.processStop
  split
  · rfl
  · rw [foldl_fix (fun st => st.1.time) _ (fun a b => pickupOne_time i a b),
        foldl_fix (fun st => st.1.time) _ (fun a b => dropOne_time i a b)]

theorem processStop_finalized (s : LiftSimEnvironment) (i : Nat) (acc : List Passenger) :
    (s.processStop i acc).1.finalized = s.finalized := by
  unfold LiftSimEnvironment.processStop
  split
  · rfl
  · rw [foldl_fix (fun st => st.1.finalized) _ (fun a b => pickupOne_finalized i a b),
        foldl_fix (fun st => st.1.finalized) _ (fun a b => dropOne_finalized i a b)]

theorem processStop_unserved (s : LiftSimEnvironment) (i : Nat) (acc : List Passenger) :
    (s.processStop i acc).1.metrics.unserved = s.metrics.unserved := by
  unfold LiftSimEnvironment.processStop
  split
  · rfl
  · rw [foldl_fix (fun st => st.1.metrics.unserved) _ (fun a b => pickupOne_unserved i a b),
        foldl_fix (fun st => st.1.metrics.unserved) _ (fun a b => dropOne_unserved i a b)]

theorem processStop_elev_length (s : LiftSimEnvironment) (i : Nat) (acc : List Passenger) :
    (s.processStop i acc).1.elevators.length = s.elevators.length := by
  unfold LiftSimEnvironment.processStop
  split
  · rfl
  · rw [foldl_fix (fun st => st.1.elevators.length) _ (fun a b => pickupOne_elev_length i a b),
        foldl_fix (fun st => st.1.elevators.length) _ (fun a b => dropOne_elev_length i a b)]

theorem moveOne_config (st : LiftSimEnvironment × List Passenger) (i : Nat) :
    (LiftSimEnvironment.moveOne st i).1.config = st.1.config := by
  unfold LiftSimEnvironment.moveOne
  dsimp only
  repeat' split
  all_goals first | rfl | simp [processStop_config]

theorem moveOne_time (st : LiftSimEnvironment × List Passenger) (i : Nat) :
    (LiftSimEnvironment.moveOne st i).1.time = st.1.time := by
  unfold LiftSimEnvironment.moveOne
  dsimp only
  repeat' split
  all_goals first | rfl | simp [processStop_time]

theorem moveOne_finalized (st : LiftSimEnvironment × List Passenger) (i : Nat) :
    (LiftSimEnvironment.moveOne st i).1.finalized = st.1.finalized := by
  unfold LiftSimEnvironment.moveOne
  dsimp only
  repeat' split
  all_goals first | rfl | simp [processStop_finalized]

theorem moveOne_unserved (st : LiftSimEnvironment × List Passenger) (i : Nat) :
    (LiftSimEnvironment.moveOne st i).1.metrics.unserved = st.1.metrics.unserved := by
  unfold LiftSimEnvironment.moveOne
  dsimp only
  repeat' split
  all_goals first | rfl | simp [processStop_unserved]

theorem moveOne_elev_length (st : LiftSimEnvironment × List Passenger) (i : Nat) :
    (LiftSimEnvironment.moveOne st i).1.elevators.length = st.1.elevators.length := by
  unfold LiftSimEnvironment.moveOne
  dsimp only
  repeat' split
  all_goals first | rfl | simp [processStop_elev_length]

theorem moveElevators_config (s : LiftSimEnvironment) :
    s.moveElevators.1.config = s.config :=
  foldl_fix (fun st => st.1.config) _ (fun a b => moveOne_config a b) _ _

theorem moveElevators_time (s : LiftSimEnvironment) :
    s.moveElevators.1.time = s.time :=
  foldl_fix (fun st => st.1.time) _ (fun a b => moveOne_time a b) _ _

theorem moveElevators_finalized (s : LiftSimEnvironment) :
    s.moveElevators.1.finalized = s.finalized :=
  foldl_fix (fun st => st.1.finalized) _ (fun a b => moveOne_finalized a b) _ _

theorem moveElevators_unserved (s : LiftSimEnvironment) :
    s.moveElevators.1.metrics.unserved = s.metrics.unserved :=
  foldl_fix (fun st => st.1.metrics.unserved) _ (fun a b => moveOne_unserved a b) _ _

theorem moveElevators_elev_length (s : LiftSimEnvironment) :
    s.moveElevators.1.elevators.length = s.elevators.length :=
  foldl_fix (fun st => st.1.elevators.length) _ (fun a b => moveOne_elev_length a b) _ _

theorem finalizeUnserved_config (s : LiftSimEnvironment) :
    s.finalizeUnserved.1.config = s.config := by
  unfold LiftSimEnvironment.finalizeUnserved
  split <;> rfl

theorem finalizeUnserved_time (s : LiftSimEnvironment) :
    s.finalizeUnserved.1.time = s.time := by
  unfold LiftSimEnvironment.finalizeUnserved
  split <;> rfl

theorem finalizeUnserved_passengers (s : LiftSimEnvironment) :
    s.finalizeUnserved.1.passengers = s.passengers := by
  unfold LiftSimEnvironment.finalizeUnserved
  split <;> rfl

theorem finalizeUnserved_elevators (s : LiftSimEnvironment) :
    s.finalizeUnserved.1.elevators = s.elevators := by
  unfold LiftSimEnvironment.finalizeUnserved
  split <;> rfl

theorem finalizeUnserved_rejected (s : LiftSimEnvironment) :
    s.finalizeUnserved.1.metrics.rejected = s.metrics.rejected := by
  unfold LiftSimEnvironment.finalizeUnserved
  dsimp only
  repeat' split
  all_goals first | rfl | simp [MetricsCollector.record_unserved]

theorem finalizeUnserved_completed (s : LiftSimEnvironment) :
    s.finalizeUnserved.1.metrics.completed = s.metrics.completed := by
  unfold LiftSimEnvironment.finalizeUnserved
  dsimp only
  repeat' split
  all_goals first | rfl | simp [MetricsCollector.record_unserved]

theorem finalizeUnserved_unserved (s : LiftSimEnvironment) :
    s.finalizeUnserved.1.metrics.unserved = s.metrics.unserved + s.finalizeUnserved.2 := by
  unfold LiftSimEnvironment.finalizeUnserved
  dsimp only
  split
  · simp
  · split
    · simp only [MetricsCollector.record_unserved]
    · dsimp only
      omega

theorem finalizeUnserved_finalized (s : LiftSimEnvironment) :
    s.finalizeUnserved.1.finalized = true := by
  unfold LiftSimEnvironment.finalizeUnserved
  split
  · rename_i h; exact h
  · rfl

theorem finalizeUnserved_of_finalized (s : LiftSimEnvironment) (h : s.finalized = true) :
    s.finalizeUnserved = (s, 0) := by
  unfold LiftSimEnvironment.finalizeUnserved
  simp [h]

theorem finalizeUnserved_count (s : LiftSimEnvironment) (h : s.finalized = false) :
    s.finalizeUnserved.2 = (s.passengers.filter (fun p => p.arrive_time.isNone)).length := by
  unfold LiftSimEnvironment.finalizeUnserved
  simp [h]

/-! ### Step-level structure lemmas -/

theorem applyActionsOpt_ok (s s' : LiftSimEnvironment) (a : Option (List (Option Int)))
    (h : s.applyActionsOpt a = .ok s') :
    s'.config = s.config ∧ s'.time = s.time ∧ s'.metrics = s.metrics ∧
      s'.finalized = s.finalized ∧ s'.passengers = s.passengers ∧
      s'.elevators.length = s.elevators.length := by
  cases a with
  | none =>
    simp only [LiftSimEnvironment.applyActionsOpt, Except.ok.injEq] at h
    subst h
    exact ⟨rfl, rfl, rfl, rfl, rfl, rfl⟩
  | some l => exact applyActions_ok _ _ _ h

theorem step_early (s : LiftSimEnvironment) (sp : Option (Int × Int))
    (a : Option (List (Option Int))) (h : s.config.horizon_s ≤ s.time) :
    s.step sp a = .ok s.finalizeUnserved.1
      (s.finalizeUnserved.1.computeReward 0 0 s.finalizeUnserved.2 []) true [] := by
  unfold LiftSimEnvironment.step
  rw [if_pos h]

theorem step_main (s : LiftSimEnvironment) (sp : Option (Int × Int))
    (a : Option (List (Option Int))) (h : ¬ s.config.horizon_s ≤ s.time) :
    s.step sp a = s.stepMain sp a := by
  unfold LiftSimEnvironment.step
  rw [if_neg h]


theorem stepMain_err_spec (s s' : LiftSimEnvironment) (sp : Option (Int × Int))
    (a : Option (List (Option Int))) (h : s.stepMain sp a = .invalidActions s') :
    s' = (s.spawnPassengers sp).dispatchNew ∧
      ((s.spawnPassengers sp).dispatchNew.applyActionsOpt a = .error ()) := by
  unfold LiftSimEnvironment.stepMain at h
  dsimp only at h
  cases heq : ((s.spawnPassengers sp).dispatchNew.applyActionsOpt a) with
  | error e =>
    cases e
    rw [heq] at h
    simp only [StepResult.invalidActions.injEq] at h
    exact ⟨h.symm, rfl⟩
  | ok s3 =>
    rw [heq] at h
    exact absurd h (by simp)

theorem stepMain_ok_spec (s s' : LiftSimEnvironment) (sp : Option (Int × Int))
    (a : Option (List (Option Int))) (r : Rat) (t : Bool) (c : List Passenger)
    (h : s.stepMain sp a = .ok s' r t c) :
    ∃ s3, ((s.spawnPassengers sp).dispatchNew.applyActionsOpt a = .ok s3) ∧
      s' = (if decide (s3.moveElevators.1.config.horizon_s ≤ s3.moveElevators.1.time + 1)
            then ({ s3.moveElevators.1 with
                    time := s3.moveElevators.1.time + 1 } : LiftSimEnvironment).finalizeUnserved
            else ({ s3.moveElevators.1 with time := s3.moveElevators.1.time + 1 }, 0)).1 ∧
      t = decide (s3.moveElevators.1.config.horizon_s ≤ s3.moveElevators.1.time + 1) ∧
      c = s3.moveElevators.2 ∧
      r = s'.computeReward (s'.metrics.completed - s.metrics.completed)
            (s'.metrics.rejected - s.metrics.rejected)
            (if decide (s3.moveElevators.1.config.horizon_s ≤ s3.moveElevators.1.time + 1)
             then ({ s3.moveElevators.1 with
                     time := s3.moveElevators.1.time + 1 } : LiftSimEnvironment).finalizeUnserved
             else ({ s3.moveElevators.1 with time := s3.moveElevators.1.time + 1 }, 0)).2
            s3.moveElevators.2 := by
  unfold LiftSimEnvironment.stepMain at h
  dsimp only at h
  cases heq : ((s.spawnPassengers sp).dispatchNew.applyActionsOpt a) with
  | error e =>
    rw [heq] at h
    exact absurd h (by simp)
  | ok s3 =>
    rw [heq] at h
    simp only [StepResult.ok.injEq] at h
    obtain ⟨h1, h2, h3, h4⟩ := h
    refine ⟨s3, rfl, ?_, ?_, ?_, ?_⟩
    · rw [← h1]
    · rw [← h3]
    · rw [← h4]
    · rw [← h2, ← h1]

/-- The state after a normal-path pre-move pipeline (spawn then dispatch then
actions) keeps config, time, metrics and finalized. -/
theorem preMove_frame (s s3 : LiftSimEnvironment) (sp : Option (Int × Int))
    (a : Option (List (Option Int)))
    (h : (s.spawnPassengers sp).dispatchNew.applyActionsOpt a = .ok s3) :
    s3.config = s.config ∧ s3.time = s.time ∧ s3.metrics = s.metrics ∧
      s3.finalized = s.finalized := by
  obtain ⟨h1, h2, h3, h4, _, _⟩ := applyActionsOpt_ok _ _ _ h
  refine ⟨?_, ?_, ?_, ?_⟩
  · rw [h1, dispatchNew_config, spawnPassengers_config]
  · rw [h2, dispatchNew_time, spawnPassengers_time]
  · rw [h3, dispatchNew_metrics, spawnPassengers_metrics]
  · rw [h4, dispatchNew_finalized, spawnPassengers_finalized]

/-! ### Reachability invariants -/

theorem stepMain_stateOf_config (s : LiftSimEnvironment) (sp : Option (Int × Int))
    (a : Option (List (Option Int))) :
    ((s.stepMain sp a).stateOf).config = s.config := by
  cases hmk : s.stepMain sp a with
  | invalidActions s' =>
    obtain ⟨hs', _⟩ := stepMain_err_spec _ _ _ _ hmk
    rw [StepResult.stateOf, hs', dispatchNew_config, spawnPassengers_config]
  | ok s' r t c =>
    obtain ⟨s3, h3, hs', _, _, _⟩ := stepMain_ok_spec _ _ _ _ _ _ _ hmk
    have hc3 := (preMove_frame _ _ _ _ h3).1
    rw [StepResult.stateOf, hs']
    split
    · rw [finalizeUnserved_config]
      dsimp only
      rw [moveElevators_config, hc3]
    · dsimp only
      rw [moveElevators_config, hc3]

theorem step_stateOf_config (s : LiftSimEnvironment) (sp : Option (Int × Int))
    (a : Option (List (Option Int))) :
    ((s.step sp a).stateOf).config = s.config := by
  by_cases hh : s.config.horizon_s ≤ s.time
  · rw [step_early s sp a hh, StepResult.stateOf, finalizeUnserved_config]
  · rw [step_main s sp a hh]
    exact stepMain_stateOf_config s sp a

theorem reachable_config (cfg : SimulationConfig) (s : LiftSimEnvironment)
    (h : Reachable cfg s) : s.config = cfg := by
  induction h with
  | init => rfl
  | reset s hr ih => exact ih
  | step s sp a hr ih => rw [step_stateOf_config, ih]

/-- In any reachable state, the finalized latch implies the clock has reached
the horizon. -/
theorem reachable_finalized_horizon (cfg : SimulationConfig) (s : LiftSimEnvironment)
    (h : Reachable cfg s) (hf : s.finalized = true) : s.config.horizon_s ≤ s.time := by
  induction h with
  | init => simp [LiftSimEnvironment.init] at hf
  | reset s hr ih => simp [LiftSimEnvironment.reset, LiftSimEnvironment.init] at hf
  | step s sp a hr ih =>
    rw [step_stateOf_config]
    by_cases hh : s.config.horizon_s ≤ s.time
    · rw [step_early s sp a hh] at hf ⊢
      rw [StepResult.stateOf, finalizeUnserved_time]
      exact hh
    · rw [step_main s sp a hh] at hf ⊢
      cases hmk : s.stepMain sp a with
      | invalidActions s' =>
        obtain ⟨hs', _⟩ := stepMain_err_spec _ _ _ _ hmk
        rw [hmk] at hf
        dsimp only [StepResult.stateOf] at hf ⊢
        rw [hs', dispatchNew_finalized, spawnPassengers_finalized] at hf
        exact absurd (ih hf) hh
      | ok s' r t c =>
        obtain ⟨s3, h3, hs', _, _, _⟩ := stepMain_ok_spec _ _ _ _ _ _ _ hmk
        obtain ⟨hcf, htm, _, hfin⟩ := preMove_frame _ _ _ _ h3
        rw [hmk] at hf
        dsimp only [StepResult.stateOf] at hf ⊢
        by_cases hterm : s3.moveElevators.1.config.horizon_s ≤ s3.moveElevators.1.time + 1
        · rw [if_pos (by simpa using hterm)] at hs'
          rw [hs', finalizeUnserved_time]
          dsimp only
          rw [moveElevators_time, htm]
          rw [moveElevators_config, moveElevators_time, hcf, htm] at hterm
          exact hterm
        · rw [if_neg (by simpa using hterm)] at hs'
          rw [hs'] at hf
          dsimp only at hf
          rw [moveElevators_finalized, hfin] at hf
          exact absurd (ih hf) hh

/-- In any reachable state at or past the horizon, either the unserved
finalization has already latched, or no passenger was ever registered (the
only way to sit at the horizon unfinalized is a run whose horizon is ≤ 0,
in which no step ever executes the spawn phase). -/
theorem reachable_horizon_finalized (cfg : SimulationConfig) (s : LiftSimEnvironment)
    (h : Reachable cfg s) (hh : s.config.horizon_s ≤ s.time) :
    s.finalized = true ∨ s.passengers = [] := by
  induction h with
  | init => exact Or.inr rfl
  | reset s hr ih => exact Or.inr rfl
  | step s sp a hr ih =>
    by_cases hpre : s.config.horizon_s ≤ s.time
    · rw [step_early s sp a hpre]
      rw [StepResult.stateOf]
      exact Or.inl (finalizeUnserved_finalized s)
    · rw [step_main s sp a hpre] at hh ⊢
      cases hmk : s.stepMain sp a with
      | invalidActions s' =>
        obtain ⟨hs', _⟩ := stepMain_err_spec _ _ _ _ hmk
        rw [hmk] at hh
        dsimp only [StepResult.stateOf] at hh ⊢
        rw [hs', dispatchNew_config, spawnPassengers_config, dispatchNew_time,
          spawnPassengers_time] at hh
        exact absurd hh hpre
      | ok s' r t c =>
        obtain ⟨s3, h3, hs', _, _, _⟩ := stepMain_ok_spec _ _ _ _ _ _ _ hmk
        obtain ⟨hcf, htm, _, _⟩ := preMove_frame _ _ _ _ h3
        rw [hmk] at hh
        dsimp only [StepResult.stateOf] at hh ⊢
        by_cases hterm : s3.moveElevators.1.config.horizon_s ≤ s3.moveElevators.1.time + 1
        · rw [if_pos (by simpa using hterm)] at hs'
          rw [hs']
          exact Or.inl (finalizeUnserved_finalized _)
        · rw [if_neg (by simpa using hterm)] at hs'
          rw [hs'] at hh
          dsimp only at hh
          exact absurd hh (by simpa using hterm)

/-- The terminated flag carried by a step result (false for a raise). -/
def StepResult.terminatedOf : StepResult → Bool
  | .ok _ _ t _ => t
  | .invalidActions _ => false

/-! ### Claim C4 — configuration validation at construction -/

/-- C4 counterexample: the claim says constructing the engine with a
configuration violating the bounds (here floors = 1 < 2, elevators = 0 < 1,
capacity = 0 < 1, dwell = -1 < 0, spawn probability 2 outside [0,1],
horizon 0 < 1) fails with a configuration error; in the code construction
performs no validation and succeeds. -/
theorem claim_C4_counterexample :
    (LiftSimEnvironment.create
      { floors := 1, elevators := 0, capacity := 0, dwell_time_s := -1,
        spawn_prob := 2, horizon_s := 0 }).isOk = true := rfl

/-- C4 (amended): construction never fails — `LiftSimEnvironment.__init__`
performs no validation of the configuration bounds, so it succeeds for every
configuration (in particular for every configuration satisfying the stated
bounds), producing the initial state: clock 0, empty registry, fresh
metrics, and a fleet of `max(elevators, 0)` cars with ids 1, 2, ..., each
with the configured capacity, at floor 1, with empty queue and no
passengers aboard. -/
theorem claim_C4 (config : SimulationConfig) :
    LiftSimEnvironment.create config = .ok (LiftSimEnvironment.init config) ∧
    (LiftSimEnvironment.init config).time = 0 ∧
    (LiftSimEnvironment.init config).passengers = [] ∧
    (LiftSimEnvironment.init config).metrics = {} ∧
    (LiftSimEnvironment.init config).elevators.length = config.elevators.toNat ∧
    (LiftSimEnvironment.init config).elevators.map (fun e => e.id)
      = (List.range config.elevators.toNat).map (fun i => i + 1) ∧
    (LiftSimEnvironment.init config).elevators.map
        (fun e => (e.capacity, e.current_floor, e.target_queue, e.passengers))
      = List.replicate config.elevators.toNat (config.capacity, 1, ([] : List Int), ([] : List Nat)) := by
  refine ⟨rfl, rfl, rfl, rfl, ?_, ?_, ?_⟩
  · simp [LiftSimEnvironment.init]
  · simp only [LiftSimEnvironment.init, List.map_map]
    rfl
  · simp only [LiftSimEnvironment.init, List.map_map]
    have hcomp : ((fun (e : Elevator) => (e.capacity, e.current_floor, e.target_queue,
          e.passengers)) ∘ fun i => ({ id := i + 1, capacity := config.capacity } : Elevator))
        = fun i => (config.capacity, (1 : Int), ([] : List Int), ([] : List Nat)) := rfl
    rw [hcomp, List.map_const', List.length_range]

/-! ### Claim C2 — destination queueing on boarding -/

/-- The failing input for C2: a capacity-1 elevator at floor 1 processing a
stop there, with one assigned, unboarded passenger (origin 1, destination 2)
waiting. -/
def c2State : LiftSimEnvironment :=
  { config := { elevators := 1, capacity := 1 }
    time := 0
    passengers := [{ id := 1, appear_time := 0, origin_floor := 1, dest_floor := 2,
                     assigned_elevator := some 1 }]
    elevators := [{ id := 1, capacity := 1, target_queue := [1] }]
    metrics := {}
    next_passenger_id := 2
    finalized := false }

/-- C2 (code bug): the claim (and the spec) require that when a passenger
boards, its destination is queued regardless of the car's occupancy after
boarding — `force` exists exactly for this.  The code calls
`elevator.enqueue_stop(p.dest_floor)` without `force`, so when the boarding
itself fills the car to capacity the destination is silently dropped.  At
the failing input the passenger boards (board_time set to 0, id 1 aboard)
yet the target queue still holds only the origin stop [1]: destination 2
was never queued, stranding the onboard passenger. -/
theorem claim_C2_code_bug :
    ((c2State.processStop 0 []).1.findPassenger 1).map
        (fun p => (p.board_time, p.assigned_elevator)) = some (some 0, some 1) ∧
    (c2State.processStop 0 []).1.elevators.map
        (fun e => (e.passengers, e.target_queue)) = [([1], [1])] :=
  ⟨rfl, rfl⟩

/-! ### Claim C3 — clock advance per step -/

/-- C3 counterexample: the claim says the clock strictly increases by one on
every step call; a call made when the clock is already at the horizon (here
horizon 0, clock 0) returns normally with the clock unchanged. -/
theorem claim_C3_counterexample :
    (((LiftSimEnvironment.init { horizon_s := 0 }).step none none).isError = false) ∧
    (((LiftSimEnvironment.init { horizon_s := 0 }).step none none).stateOf.time
      = (LiftSimEnvironment.init { horizon_s := 0 }).time) :=
  ⟨rfl, rfl⟩

/-- C3 (amended): a step call that begins with the clock strictly below the
configured horizon and returns normally advances the clock by exactly one
second; a call that begins at or past the horizon returns terminated with
the clock unchanged. -/
theorem claim_C3 (s : LiftSimEnvironment) (sp : Option (Int × Int))
    (a : Option (List (Option Int))) :
    (∀ s' r t c, ¬ s.config.horizon_s ≤ s.time → s.step sp a = .ok s' r t c →
      s'.time = s.time + 1) ∧
    (s.config.horizon_s ≤ s.time →
      ∃ s' r, s.step sp a = .ok s' r true [] ∧ s'.time = s.time) := by
  constructor
  · intro s' r t c hlt hok
    rw [step_main s sp a hlt] at hok
    obtain ⟨s3, h3, hs', _, _, _⟩ := stepMain_ok_spec _ _ _ _ _ _ _ hok
    obtain ⟨_, htm, _, _⟩ := preMove_frame _ _ _ _ h3
    rw [hs']
    split
    · rw [finalizeUnserved_time]
      dsimp only
      rw [moveElevators_time, htm]
    · dsimp only
      rw [moveElevators_time, htm]
  · intro hge
    rw [step_early s sp a hge]
    exact ⟨_, _, rfl, finalizeUnserved_time s⟩

/-- Witness for C3 at a concrete input: from a fresh environment with
horizon 5 a step call advances the clock from 0 to 1. -/
theorem claim_C3_witness :
    ((LiftSimEnvironment.init { horizon_s := 5 }).step none none).stateOf.time
      = (LiftSimEnvironment.init { horizon_s := 5 }).time + 1 := by
  cases hstep : (LiftSimEnvironment.init { horizon_s := 5 }).step none none with
  | ok s' r t c =>
    have h := (claim_C3 (LiftSimEnvironment.init { horizon_s := 5 }) none none).1
      s' r t c (by decide) hstep
    rw [StepResult.stateOf]
    exact h
  | invalidActions s' =>
    have hE : ((LiftSimEnvironment.init { horizon_s := 5 }).step none none).isError
        = false := rfl
    rw [hstep] at hE
    simp [StepResult.isError] at hE

/-! ### Claim C10 — step at or past the horizon is a pure frame -/

/-- C10: in every reachable state whose clock has already reached the
configured horizon, a step call returns terminated = true (completing no
passenger) and leaves the clock, the whole elevator fleet state, every
passenger record and the metrics unchanged. -/
theorem claim_C10 (cfg : SimulationConfig) (s : LiftSimEnvironment)
    (sp : Option (Int × Int)) (a : Option (List (Option Int)))
    (hr : Reachable cfg s) (hh : s.config.horizon_s ≤ s.time) :
    ∃ s' r, s.step sp a = .ok s' r true [] ∧
      s'.time = s.time ∧ s'.elevators = s.elevators ∧
      s'.passengers = s.passengers ∧ s'.metrics = s.metrics := by
  rw [step_early s sp a hh]
  refine ⟨_, _, rfl, finalizeUnserved_time s, finalizeUnserved_elevators s,
    finalizeUnserved_passengers s, ?_⟩
  rcases reachable_horizon_finalized cfg s hr hh with hf | hp
  · rw [finalizeUnserved_of_finalized s hf]
  · unfold LiftSimEnvironment.finalizeUnserved
    split
    · rfl
    · dsimp only
      rw [hp]
      simp

/-- Witness for C10 at a concrete input: a fresh environment with horizon 0
is already at the horizon; its first step call terminates and changes
nothing listed. -/
theorem claim_C10_witness :
    (((LiftSimEnvironment.init { horizon_s := 0 }).step none none).terminatedOf = true) ∧
    (((LiftSimEnvironment.init { horizon_s := 0 }).step none none).stateOf.time
      = (LiftSimEnvironment.init { horizon_s := 0 }).time) ∧
    (((LiftSimEnvironment.init { horizon_s := 0 }).step none none).stateOf.metrics
      = (LiftSimEnvironment.init { horizon_s := 0 }).metrics) := by
  obtain ⟨s', r, hok, h1, h2, h3, h4⟩ :=
    claim_C10 _ _ none none Reachable.init
      (show (LiftSimEnvironment.init { horizon_s := 0 }).config.horizon_s
          ≤ (LiftSimEnvironment.init { horizon_s := 0 }).time by decide)
  rw [hok]
  exact ⟨rfl, h1, h4⟩

/-! ### Claim C1 — unserved finalization, exactly once -/

/-- C1: the metrics collector keeps completed/rejected/unserved counters; on
the step call that takes the clock to the horizon, the unserved counter
grows by exactly the number of registered passengers that never received an
arrive_time (each counted exactly once), and the finalized latch is set;
once the latch is set, no step call (on any path, returning or raising)
ever changes the unserved counter again.  (The unserved counter itself is
spec-modelled, src/core/metrics.py lacking it; see `MetricsCollector`.) -/
theorem claim_C1 (cfg : SimulationConfig) (s : LiftSimEnvironment)
    (sp : Option (Int × Int)) (a : Option (List (Option Int)))
    (hr : Reachable cfg s) :
    (∀ s' r c, ¬ s.config.horizon_s ≤ s.time → s.step sp a = .ok s' r true c →
      s'.metrics.unserved = s.metrics.unserved +
        (s'.passengers.filter (fun p => p.arrive_time.isNone)).length ∧
      s'.finalized = true) ∧
    (s.finalized = true →
      ((s.step sp a).stateOf).metrics.unserved = s.metrics.unserved) := by
  constructor
  · intro s' r c hlt hok
    rw [step_main s sp a hlt] at hok
    obtain ⟨s3, h3, hs', ht, _, _⟩ := stepMain_ok_spec _ _ _ _ _ _ _ hok
    obtain ⟨_, _, hme, hfin⟩ := preMove_frame _ _ _ _ h3
    have hterm : decide (s3.moveElevators.1.config.horizon_s
        ≤ s3.moveElevators.1.time + 1) = true := ht.symm
    rw [if_pos hterm] at hs'
    have hsfin : s.finalized = false := by
      cases hsf : s.finalized with
      | false => rfl
      | true => exact absurd (reachable_finalized_horizon cfg s hr hsf) hlt
    have h5fin : ({ s3.moveElevators.1 with
        time := s3.moveElevators.1.time + 1 } : LiftSimEnvironment).finalized = false := by
      dsimp only
      rw [moveElevators_finalized, hfin, hsfin]
    constructor
    · rw [hs', finalizeUnserved_unserved, finalizeUnserved_count _ h5fin,
          finalizeUnserved_passengers]
      dsimp only
      rw [moveElevators_unserved, hme]
    · rw [hs']
      exact finalizeUnserved_finalized _
  · intro hf
    by_cases hh : s.config.horizon_s ≤ s.time
    · rw [step_early s sp a hh]
      rw [StepResult.stateOf, finalizeUnserved_of_finalized s hf]
    · rw [step_main s sp a hh]
      cases hmk : s.stepMain sp a with
      | invalidActions s' =>
        obtain ⟨hs', _⟩ := stepMain_err_spec _ _ _ _ hmk
        rw [StepResult.stateOf, hs', dispatchNew_metrics, spawnPassengers_metrics]
      | ok s' r t c =>
        obtain ⟨s3, h3, hs', _, _, _⟩ := stepMain_ok_spec _ _ _ _ _ _ _ hmk
        obtain ⟨_, _, hme, hfin⟩ := preMove_frame _ _ _ _ h3
        rw [StepResult.stateOf, hs']
        have h5fin : ({ s3.moveElevators.1 with
            time := s3.moveElevators.1.time + 1 } : LiftSimEnvironment).finalized = true := by
          dsimp only
          rw [moveElevators_finalized, hfin, hf]
        split
        · rw [finalizeUnserved_of_finalized _ h5fin]
          dsimp only
          rw [moveElevators_unserved, hme]
        · dsimp only
          rw [moveElevators_unserved, hme]

/-- Witness for C1 at a concrete input: a fresh environment with horizon 1
terminates on its first step; the unserved counter grows by the number of
never-arrived passengers (zero here, none having spawned) and the latch is
set. -/
theorem claim_C1_witness :
    (((LiftSimEnvironment.init { horizon_s := 1 }).step none none).stateOf).metrics.unserved
      = (LiftSimEnvironment.init { horizon_s := 1 }).metrics.unserved +
        ((((LiftSimEnvironment.init { horizon_s := 1 }).step none none).stateOf).passengers.filter
          (fun p => p.arrive_time.isNone)).length ∧
    (((LiftSimEnvironment.init { horizon_s := 1 }).step none none).stateOf).finalized = true := by
  cases hstep : (LiftSimEnvironment.init { horizon_s := 1 }).step none none with
  | ok s' r t c =>
    have ht : t = true := by
      have hterm : ((LiftSimEnvironment.init { horizon_s := 1 }).step none none).terminatedOf
          = true := rfl
      rw [hstep] at hterm
      exact hterm
    subst ht
    have h := (claim_C1 _ _ none none Reachable.init).1 s' r c (by decide) hstep
    rw [StepResult.stateOf]
    exact h
  | invalidActions s' =>
    have hE : ((LiftSimEnvironment.init { horizon_s := 1 }).step none none).isError
        = false := rfl
    rw [hstep] at hE
    simp [StepResult.isError] at hE

/-! ### Claim C9 — the reward formula -/

/-- Per-completion reward term of _compute_reward: base 9.0, minus
0.005 per second of wait, minus 0.002 per second of ride (`x or 0` maps an
unset time to 0). -/
def completionReward (p : Passenger) : Rat :=
  9 - 0.005 * ((p.waiting_time.getD 0 : Int) : Rat)
    - 0.002 * ((p.ride_time.getD 0 : Int) : Rat)

/-- The reward carried by a step result (0 for a raise, which returns no
reward). -/
def StepResult.rewardOf : StepResult → Rat
  | .ok _ r _ _ => r
  | .invalidActions _ => 0

/-- The completed-passenger list carried by a step result. -/
def StepResult.completedOf : StepResult → List Passenger
  | .ok _ _ _ c => c
  | .invalidActions _ => []

theorem computeReward_foldl (l : List Passenger) (b : Rat) :
    l.foldl (fun r p => r + 9 - 0.005 * ((p.waiting_time.getD 0 : Int) : Rat)
      - 0.002 * ((p.ride_time.getD 0 : Int) : Rat)) b
    = b + (l.map completionReward).sum := by
  induction l generalizing b with
  | nil => simp
  | cons p ps ih =>
    rw [List.foldl_cons, ih, List.map_cons, List.sum_cons]
    unfold completionReward
    ring

theorem computeReward_eq (s : LiftSimEnvironment) (dc dr du : Nat) (l : List Passenger) :
    s.computeReward dc dr du l
      = 0 - 0.015 * (s.waitingCount : Rat) - 2 * (dr : Rat) - 20 * (du : Rat)
        + (l.map completionReward).sum := by
  unfold LiftSimEnvironment.computeReward
  dsimp only
  rw [computeReward_foldl]

/-- C9: every normally returning step call yields the reward
  -0.015·(passengers still unboarded after the step)
  -2.0·(rejections recorded during the step)
  -20.0·(passengers newly finalized as unserved during the step)
  +Σ over passengers completed during the step of
     (9.0 - 0.005·wait - 0.002·ride).
Deltas are expressed as differences of the metrics counters across the
call; floats are modelled as exact rationals. -/
theorem claim_C9 (s s' : LiftSimEnvironment) (sp : Option (Int × Int))
    (a : Option (List (Option Int))) (r : Rat) (t : Bool) (c : List Passenger)
    (hok : s.step sp a = .ok s' r t c) :
    r = 0 - 0.015 * (s'.waitingCount : Rat)
      - 2 * ((s'.metrics.rejected - s.metrics.rejected : Nat) : Rat)
      - 20 * ((s'.metrics.unserved - s.metrics.unserved : Nat) : Rat)
      + (c.map completionReward).sum := by
  by_cases hh : s.config.horizon_s ≤ s.time
  · rw [step_early s sp a hh] at hok
    simp only [StepResult.ok.injEq] at hok
    obtain ⟨h1, h2, h3, h4⟩ := hok
    subst h4
    have hrej : s'.metrics.rejected - s.metrics.rejected = 0 := by
      rw [← h1, finalizeUnserved_rejected]
      omega
    have huns : s'.metrics.unserved - s.metrics.unserved = s.finalizeUnserved.2 := by
      rw [← h1, finalizeUnserved_unserved]
      omega
    have hW : s'.waitingCount = s.finalizeUnserved.1.waitingCount := by rw [← h1]
    rw [← h2, computeReward_eq, hrej, huns, hW]
  · rw [step_main s sp a hh] at hok
    obtain ⟨s3, h3, hs', ht, hc, hr⟩ := stepMain_ok_spec _ _ _ _ _ _ _ hok
    obtain ⟨_, _, hme, _⟩ := preMove_frame _ _ _ _ h3
    have hm5 : ({ s3.moveElevators.1 with
        time := s3.moveElevators.1.time + 1 } : LiftSimEnvironment).metrics.unserved
        = s.metrics.unserved := by
      dsimp only
      rw [moveElevators_unserved, hme]
    rw [hr, computeReward_eq, hc]
    by_cases hterm : s3.moveElevators.1.config.horizon_s ≤ s3.moveElevators.1.time + 1
    · rw [if_pos (by simpa using hterm)] at hs' ⊢
      have huns : s'.metrics.unserved - s.metrics.unserved
          = ({ s3.moveElevators.1 with
              time := s3.moveElevators.1.time + 1 } : LiftSimEnvironment).finalizeUnserved.2 := by
        rw [hs', finalizeUnserved_unserved, hm5]
        omega
      rw [huns]
    · rw [if_neg (by simpa using hterm)] at hs' ⊢
      have huns : s'.metrics.unserved - s.metrics.unserved = 0 := by
        rw [hs', hm5]
        omega
      rw [huns]

/-- Witness for C9 at a concrete input: on a fresh environment with
horizon 5, the first step call's reward satisfies the formula (everything
zero: no waiting passengers, no rejections, no unserved, no completions). -/
theorem claim_C9_witness :
    ((LiftSimEnvironment.init { horizon_s := 5 }).step none none).rewardOf
      = 0 - 0.015 * ((((LiftSimEnvironment.init { horizon_s := 5 }).step none
            none).stateOf.waitingCount : Nat) : Rat)
        - 2 * ((((LiftSimEnvironment.init { horizon_s := 5 }).step none
            none).stateOf.metrics.rejected
            - (LiftSimEnvironment.init { horizon_s := 5 }).metrics.rejected : Nat) : Rat)
        - 20 * ((((LiftSimEnvironment.init { horizon_s := 5 }).step none
            none).stateOf.metrics.unserved
            - (LiftSimEnvironment.init { horizon_s := 5 }).metrics.unserved : Nat) : Rat)
        + ((((LiftSimEnvironment.init { horizon_s := 5 }).step none
            none).completedOf).map completionReward).sum := by
  cases hstep : (LiftSimEnvironment.init { horizon_s := 5 }).step none none with
  | ok s' r t c =>
    have h := claim_C9 _ s' none none r t c hstep
    rw [StepResult.rewardOf, StepResult.stateOf, StepResult.completedOf]
    exact h
  | invalidActions s' =>
    have hE : ((LiftSimEnvironment.init { horizon_s := 5 }).step none none).isError
        = false := rfl
    rw [hstep] at hE
    simp [StepResult.isError] at hE

/-! ### Claim C5 — capacity and queue-distinctness invariant -/

/-- The C5 per-elevator invariant: occupancy within capacity and no
duplicate queue entries. -/
def ElevInv (e : Elevator) : Prop :=
  (e.passengers.length : Int) ≤ e.capacity ∧ e.target_queue.Nodup

/-- The C5 invariant over the whole fleet. -/
def FleetInv (s : LiftSimEnvironment) : Prop :=
  ∀ e ∈ s.elevators, ElevInv e

theorem elevInv_enqueue (e : Elevator) (f : Int) (force : Bool) (h : ElevInv e) :
    ElevInv (e.enqueue_stop f force) := by
  unfold Elevator.enqueue_stop
  split
  · exact h
  · split
    · exact h
    · rename_i hmem
      refine ⟨h.1, ?_⟩
      simp [List.nodup_append, h.2, hmem]

theorem elevInv_not_full (e : Elevator) (h : e.is_full = false) :
    (e.passengers.length : Int) < e.capacity := by
  simp [Elevator.is_full] at h
  exact h

theorem fleetInv_set (s : LiftSimEnvironment) (i : Nat) (e : Elevator)
    (hI : FleetInv s) (he : ElevInv e) : FleetInv (s.setElev i e) := by
  intro x hx
  rw [setElev_elevators] at hx
  rcases List.mem_or_eq_of_mem_set hx with hmem | heq
  · exact hI x hmem
  · rw [heq]; exact he

theorem fleetInv_get (s : LiftSimEnvironment) (i : Nat) (e : Elevator)
    (hI : FleetInv s) (hget : s.elevators.get? i = some e) : ElevInv e :=
  hI e (List.get?_mem hget)

theorem fleetInv_metrics (s : LiftSimEnvironment) (m : MetricsCollector)
    (hI : FleetInv s) : FleetInv { s with metrics := m } :=
  fun x hx => hI x hx

theorem fleetInv_updatePassenger (s : LiftSimEnvironment) (pid : Nat)
    (f : Passenger → Passenger) (hI : FleetInv s) : FleetInv (s.updatePassenger pid f) :=
  fun x hx => hI x hx

theorem elevInv_erase (e : Elevator) (pid : Nat) (h : ElevInv e) :
    ElevInv { e with passengers := e.passengers.erase pid } := by
  refine ⟨?_, h.2⟩
  have hle : (e.passengers.erase pid).length ≤ e.passengers.length :=
    (List.erase_sublist pid e.passengers).length_le
  have h1 := h.1
  dsimp only
  omega

theorem fleetInv_assignPassenger (s : LiftSimEnvironment) (pid : Nat)
    (hI : FleetInv s) : FleetInv (assignPassenger s pid) := by
  unfold assignPassenger
  cases hfp : s.findPassenger pid with
  | none => exact hI
  | some p =>
    dsimp only
    split
    · exact hI
    · cases hpick : pickElevatorIdx s.elevators p.origin_floor with
      | none => exact hI
      | some i =>
        dsimp only
        cases hget : s.elevators.get? i with
        | none => exact hI
        | some best =>
          dsimp only
          have hb := fleetInv_get s i best hI hget
          have hupd := fleetInv_updatePassenger s pid
            (fun q => { q with assigned_elevator := some best.id }) hI
          split
          · exact hupd
          · exact fleetInv_set _ i _ hupd (elevInv_enqueue best _ false hb)

theorem fleetInv_dispatchNew (s : LiftSimEnvironment) (hI : FleetInv s) :
    FleetInv s.dispatchNew :=
  foldl_preserve FleetInv assignPassenger (fun a b => fleetInv_assignPassenger a b) _ s hI

theorem elevInv_applyOne (cfg : SimulationConfig) (e : Elevator) (t : Option Int)
    (h : ElevInv e) : ElevInv (applyOne cfg e t) := by
  unfold applyOne
  repeat' split
  any_goals exact h
  exact elevInv_enqueue e _ false h

theorem fleetInv_applyActionsOpt (s s' : LiftSimEnvironment)
    (a : Option (List (Option Int))) (h : s.applyActionsOpt a = .ok s')
    (hI : FleetInv s) : FleetInv s' := by
  cases a with
  | none =>
    simp only [LiftSimEnvironment.applyActionsOpt, Except.ok.injEq] at h
    subst h
    exact hI
  | some l =>
    simp only [LiftSimEnvironment.applyActionsOpt] at h
    unfold LiftSimEnvironment.applyActions at h
    split at h
    · exact absurd h (by simp)
    · simp only [Except.ok.injEq] at h
      subst h
      intro x hx
      simp only [List.mem_map] at hx
      obtain ⟨pr, hpr, hx⟩ := hx
      have hmem := (List.of_mem_zip hpr).1
      rw [← hx]
      exact elevInv_applyOne _ _ _ (hI pr.1 hmem)

theorem fleetInv_spawn (s : LiftSimEnvironment) (sp : Option (Int × Int))
    (hI : FleetInv s) : FleetInv (s.spawnPassengers sp) := by
  intro x hx
  rw [spawnPassengers_elevators] at hx
  exact hI x hx

theorem fleetInv_dropOne (i : Nat) (st : LiftSimEnvironment × List Passenger) (pid : Nat)
    (hI : FleetInv st.1) : FleetInv (dropOne i st pid).1 := by
  unfold dropOne
  dsimp only
  split
  · exact hI
  · rename_i p0 hfp
    have h1 := fleetInv_updatePassenger st.1 pid
      (fun q => { q with arrive_time := some st.1.time }) hI
    have h2 : FleetInv (match (st.1.updatePassenger pid
        (fun q => { q with arrive_time := some st.1.time })).elevators.get? i with
      | some e => (st.1.updatePassenger pid
          (fun q => { q with arrive_time := some st.1.time })).setElev i
            { e with passengers := e.passengers.erase pid }
      | none => st.1.updatePassenger pid
          (fun q => { q with arrive_time := some st.1.time })) := by
      split
      · rename_i e hget
        exact fleetInv_set _ i _ h1 (elevInv_erase e pid (fleetInv_get _ i e h1 hget))
      · exact h1
    split
    · exact fleetInv_metrics _ _ h2
    · exact h2

theorem elevInv_board (e : Elevator) (pid : Nat) (hfull : e.is_full = false)
    (h : ElevInv e) : ElevInv { e with passengers := e.passengers ++ [pid] } := by
  refine ⟨?_, h.2⟩
  have := elevInv_not_full e hfull
  dsimp only
  simp only [List.length_append, List.length_singleton]
  push_cast
  omega

theorem fleetInv_pickupOne (i : Nat) (st : LiftSimEnvironment × List Passenger)
    (p : Passenger) (hI : FleetInv st.1) : FleetInv (pickupOne i st p).1 := by
  unfold pickupOne
  dsimp only
  split
  · exact hI
  · rename_i e hget
    split
    · exact fleetInv_metrics _ _ (fleetInv_updatePassenger _ _ _ hI)
    · rename_i hfull
      have hf : e.is_full = false := by simpa using hfull
      have he := fleetInv_get _ i e hI hget
      have h1 := fleetInv_updatePassenger st.1 p.id
        (fun q => { q with board_time := some st.1.time }) hI
      have h2 := fleetInv_set _ i _ h1 (elevInv_board e p.id hf he)
      dsimp only
      split
      · rename_i e2 hget2
        exact fleetInv_set _ i _ h2
          (elevInv_enqueue e2 _ false (fleetInv_get _ i e2 h2 hget2))
      · exact h2

theorem fleetInv_processStop (s : LiftSimEnvironment) (i : Nat) (acc : List Passenger)
    (hI : FleetInv s) : FleetInv (s.processStop i acc).1 := by
  unfold LiftSimEnvironment.processStop
  dsimp only
  split
  · exact hI
  · apply foldl_preserve (fun st => FleetInv st.1) (pickupOne i)
      (fun a b => fleetInv_pickupOne i a b)
    apply foldl_preserve (fun st => FleetInv st.1) (dropOne i)
      (fun a b => fleetInv_dropOne i a b)
    exact hI

theorem elevInv_tick (e : Elevator) (dt : Int) (h : ElevInv e) :
    ElevInv (e.tick_dwell dt) := by
  unfold Elevator.tick_dwell
  dsimp only
  split <;> exact ⟨h.1, h.2⟩

theorem elevInv_move_toward (e : Elevator) (t : Int) (h : ElevInv e) :
    ElevInv (e.move_toward t) := by
  unfold Elevator.move_toward
  dsimp only
  split
  · exact h
  · exact ⟨h.1, h.2⟩

theorem elevInv_begin_dwell_drop (e : Elevator) (d : Int) (h : ElevInv e) :
    ElevInv (Elevator.begin_dwell { e with target_queue := e.target_queue.drop 1 } d) :=
  ⟨h.1, List.Nodup.sublist (List.drop_sublist 1 e.target_queue) h.2⟩

theorem fleetInv_moveOne (st : LiftSimEnvironment × List Passenger) (i : Nat)
    (hI : FleetInv st.1) : FleetInv (LiftSimEnvironment.moveOne st i).1 := by
  unfold LiftSimEnvironment.moveOne
  dsimp only
  split
  · exact hI
  · rename_i e hget
    have he := fleetInv_get _ i e hI hget
    split
    · exact fleetInv_set _ i _ hI (elevInv_tick e 1 he)
    · split
      · exact fleetInv_set _ i _ hI ⟨he.1, he.2⟩
      · split
        · have hps := fleetInv_processStop st.1 i st.2 hI
          dsimp only
          split
          · rename_i e1 hget1
            exact fleetInv_set _ i _ hps
              (elevInv_begin_dwell_drop e1 _ (fleetInv_get _ i e1 hps hget1))
          · exact hps
        · exact fleetInv_set _ i _ hI (elevInv_move_toward e _ he)

theorem fleetInv_moveElevators (s : LiftSimEnvironment) (hI : FleetInv s) :
    FleetInv s.moveElevators.1 :=
  foldl_preserve (fun st => FleetInv st.1) LiftSimEnvironment.moveOne
    (fun a b => fleetInv_moveOne a b) _ _ hI

theorem fleetInv_init (cfg : SimulationConfig) (hcap : 0 ≤ cfg.capacity) :
    FleetInv (LiftSimEnvironment.init cfg) := by
  intro e he
  simp only [LiftSimEnvironment.init, List.mem_map] at he
  obtain ⟨i, _, he⟩ := he
  rw [← he]
  exact ⟨by simpa using hcap, List.nodup_nil⟩

theorem fleetInv_step (s : LiftSimEnvironment) (sp : Option (Int × Int))
    (a : Option (List (Option Int))) (hI : FleetInv s) :
    FleetInv ((s.step sp a).stateOf) := by
  by_cases hh : s.config.horizon_s ≤ s.time
  · rw [step_early s sp a hh]
    rw [StepResult.stateOf]
    intro x hx
    rw [finalizeUnserved_elevators] at hx
    exact hI x hx
  · rw [step_main s sp a hh]
    cases hmk : s.stepMain sp a with
    | invalidActions s' =>
      obtain ⟨hs', _⟩ := stepMain_err_spec _ _ _ _ hmk
      rw [StepResult.stateOf, hs']
      exact fleetInv_dispatchNew _ (fleetInv_spawn _ _ hI)
    | ok s' r t c =>
      obtain ⟨s3, h3, hs', _, _, _⟩ := stepMain_ok_spec _ _ _ _ _ _ _ hmk
      have hI3 := fleetInv_applyActionsOpt _ _ _ h3
        (fleetInv_dispatchNew _ (fleetInv_spawn _ _ hI))
      have hImv := fleetInv_moveElevators s3 hI3
      have hI5 : FleetInv ({ s3.moveElevators.1 with
          time := s3.moveElevators.1.time + 1 } : LiftSimEnvironment) :=
        fun x hx => hImv x hx
      rw [StepResult.stateOf, hs']
      split
      · intro x hx
        rw [finalizeUnserved_elevators] at hx
        exact hI5 x hx
      · exact hI5

/-- C5: in every reachable state of an engine whose configured capacity is
nonnegative (the spec requires capacity ≥ 1), every elevator carries at most
`capacity` passengers and its target queue holds no duplicate floors; the
invariant is preserved by every operation of the per-second loop. -/
theorem claim_C5 (cfg : SimulationConfig) (s : LiftSimEnvironment)
    (hcap : 0 ≤ cfg.capacity) (hr : Reachable cfg s) :
    ∀ e ∈ s.elevators, (e.passengers.length : Int) ≤ e.capacity ∧
      e.target_queue.Nodup := by
  induction hr with
  | init => exact fleetInv_init cfg hcap
  | reset s hr ih =>
    unfold LiftSimEnvironment.reset
    exact fleetInv_init _ (by rw [reachable_config cfg s hr]; exact hcap)
  | step s sp a hr ih => exact fleetInv_step s sp a ih

/-- Witness for C5 at a concrete input: the single elevator of a freshly
constructed one-car engine satisfies both invariant clauses. -/
theorem claim_C5_witness :
    ((({ id := 1, capacity := 12 } : Elevator).passengers.length : Int)
        ≤ ({ id := 1, capacity := 12 } : Elevator).capacity) ∧
      ({ id := 1, capacity := 12 } : Elevator).target_queue.Nodup :=
  claim_C5 { elevators := 1 } _ (by decide) Reachable.init
    { id := 1, capacity := 12 } (by decide)

/-! ### Claim C8 — external action validation and application -/

theorem zip_get? {α β : Type _} :
    ∀ (l1 : List α) (l2 : List β) (i : Nat) (x : α) (y : β),
      l1.get? i = some x → l2.get? i = some y → (l1.zip l2).get? i = some (x, y) := by
  intro l1
  induction l1 with
  | nil => intro l2 i x y h1 _; simp at h1
  | cons a l ih =>
    intro l2 i x y h1 h2
    cases l2 with
    | nil => simp at h2
    | cons b l2' =>
      cases i with
      | zero =>
        simp only [List.get?] at h1 h2
        cases h1; cases h2
        rfl
      | succ n =>
        simp only [List.get?] at h1 h2 ⊢
        exact ih l2' n x y h1 h2

/-- C8 counterexample: the claim says a step call with a wrong-length actions
sequence fails with no stop enqueued on any elevator.  The length check runs
only after the spawn and dispatch sub-phases: here the failing call itself
spawns a passenger at floor 2, the dispatcher enqueues floor 2 on the only
elevator, and then the ValueError is raised — the call fails, yet a stop
was enqueued. -/
theorem claim_C8_counterexample :
    (((LiftSimEnvironment.init { elevators := 1 }).step (some (2, 3))
        (some [])).isError = true) ∧
    ((((LiftSimEnvironment.init { elevators := 1 }).step (some (2, 3))
        (some [])).stateOf).elevators.map (fun e => e.target_queue) = [[2]]) :=
  ⟨rfl, rfl⟩

/-- C8 (amended): a wrong-length actions sequence makes apply_actions raise
an invalid-argument error before touching any elevator, and makes the step
call fail (with the spawn and dispatch sub-phases, which run before the
length check, already applied — those may themselves enqueue stops).
Otherwise each elevator is paired with its action: None or 0 leaves the
elevator unchanged, as does an out-of-range target or a full car; an
in-range non-zero target on a non-full car is appended to the target queue
if absent. -/
theorem claim_C8 (s : LiftSimEnvironment) (actions : List (Option Int)) :
    (actions.length ≠ s.elevators.length → s.applyActions actions = .error ()) ∧
    (actions.length = s.elevators.length →
      ∃ s', s.applyActions actions = .ok s' ∧
        s'.config = s.config ∧ s'.time = s.time ∧ s'.passengers = s.passengers ∧
        s'.metrics = s.metrics ∧
        s'.elevators = (s.elevators.zip actions).map
          (fun pr => applyOne s.config pr.1 pr.2) ∧
        ∀ i e t, s.elevators.get? i = some e → actions.get? i = some t →
          s'.elevators.get? i = some (applyOne s.config e t) ∧
          ((t = none ∨ t = some 0) → applyOne s.config e t = e) ∧
          (∀ tv, t = some tv → tv ≠ 0 → ¬(1 ≤ tv ∧ tv ≤ s.config.floors) →
            applyOne s.config e t = e) ∧
          (∀ tv, t = some tv → e.is_full = true → applyOne s.config e t = e) ∧
          (∀ tv, t = some tv → tv ≠ 0 → 1 ≤ tv → tv ≤ s.config.floors →
            e.is_full = false →
            applyOne s.config e t = { e with target_queue :=
              if tv ∈ e.target_queue then e.target_queue
              else e.target_queue ++ [tv] })) ∧
    (∀ sp, ¬ s.config.horizon_s ≤ s.time →
      actions.length ≠ s.elevators.length →
      s.step sp (some actions)
        = .invalidActions ((s.spawnPassengers sp).dispatchNew)) := by
  refine ⟨applyActions_error s actions, ?_, ?_⟩
  · intro hlen
    unfold LiftSimEnvironment.applyActions
    rw [if_neg (by omega)]
    refine ⟨_, rfl, rfl, rfl, rfl, rfl, rfl, ?_⟩
    intro i e t hge hgt
    constructor
    · dsimp only
      rw [List.get?_map, zip_get? _ _ _ _ _ hge hgt]
      rfl
    refine ⟨?_, ?_, ?_, ?_⟩
    · rintro (rfl | rfl)
      · rfl
      · simp [applyOne]
    · rintro tv rfl htv hrange
      simp only [applyOne]
      rw [if_neg htv, if_neg (by tauto)]
    · rintro tv rfl hfull
      by_cases htv : tv = 0
      · simp [applyOne, htv]
      · simp only [applyOne]
        rw [if_neg htv, if_neg (by simp [hfull])]
    · rintro tv rfl htv h1 h2 hfull
      simp only [applyOne]
      rw [if_neg htv, if_pos ⟨⟨h1, h2⟩, hfull⟩]
      unfold Elevator.enqueue_stop
      rw [if_neg (by simp [hfull])]
      split <;> rfl
  · intro sp hpre hlen
    rw [step_main s sp (some actions) hpre]
    have hlen2 : actions.length ≠ ((s.spawnPassengers sp).dispatchNew).elevators.length := by
      rw [dispatchNew_elev_length, spawnPassengers_elevators]
      exact hlen
    have herr : ((s.spawnPassengers sp).dispatchNew).applyActionsOpt (some actions)
        = .error () := by
      simp only [LiftSimEnvironment.applyActionsOpt]
      exact applyActions_error _ _ hlen2
    unfold LiftSimEnvironment.stepMain
    dsimp only
    rw [herr]

/-- Witness for C8 at concrete inputs: a one-car engine rejects an empty
actions list; with the matching list [5] the target floor 5 is enqueued on
the (previously empty) queue of the only elevator. -/
theorem claim_C8_witness :
    ((LiftSimEnvironment.init { elevators := 1 }).applyActions [] = .error ()) ∧
    (((LiftSimEnvironment.init { elevators := 1 }).applyActions [some 5]).map
      (fun s' => s'.elevators.map (fun e => e.target_queue)) = .ok [[5]]) := by
  constructor
  · exact (claim_C8 (LiftSimEnvironment.init { elevators := 1 }) []).1 (by decide)
  · obtain ⟨s', hok, _, _, _, _, helev, _⟩ :=
      (claim_C8 (LiftSimEnvironment.init { elevators := 1 }) [some 5]).2.1 (by decide)
    rw [hok]
    simp only [Except.map]
    rw [helev]
    rfl

/-! ### Claim C7 — the ETA dispatcher -/

theorem pickFold_cons (origin : Int) (c x : Nat × Elevator) (xs : List (Nat × Elevator)) :
    pickFold origin c (x :: xs)
      = pickFold origin
          (if floorDist x.2 origin < floorDist c.2 origin then x else c) xs := rfl

theorem pickFold_spec (origin : Int) :
    ∀ (l : List (Nat × Elevator)) (c : Nat × Elevator),
      (pickFold origin c l = c ∨ (pickFold origin c l ∈ l ∧
        floorDist (pickFold origin c l).2 origin < floorDist c.2 origin)) ∧
      floorDist (pickFold origin c l).2 origin ≤ floorDist c.2 origin ∧
      ∀ x ∈ l, floorDist (pickFold origin c l).2 origin ≤ floorDist x.2 origin := by
  intro l
  induction l with
  | nil =>
    intro c
    exact ⟨Or.inl rfl, le_refl _, by simp⟩
  | cons x xs ih =>
    intro c
    rw [pickFold_cons]
    by_cases hd : floorDist x.2 origin < floorDist c.2 origin
    · rw [if_pos hd]
      obtain ⟨hA, hB, hC⟩ := ih x
      refine ⟨?_, ?_, ?_⟩
      · rcases hA with heq | ⟨hmem, hlt⟩
        · exact Or.inr ⟨by rw [heq]; exact List.mem_cons_self x xs, by rw [heq]; exact hd⟩
        · exact Or.inr ⟨List.mem_cons_of_mem x hmem, lt_trans hlt hd⟩
      · exact le_of_lt (lt_of_le_of_lt hB hd)
      · intro y hy
        rcases List.mem_cons.mp hy with rfl | hy'
        · exact hB
        · exact hC y hy'
    · rw [if_neg hd]
      obtain ⟨hA, hB, hC⟩ := ih c
      refine ⟨?_, hB, ?_⟩
      · rcases hA with heq | ⟨hmem, hlt⟩
        · exact Or.inl heq
        · exact Or.inr ⟨List.mem_cons_of_mem x hmem, hlt⟩
      · intro y hy
        rcases List.mem_cons.mp hy with rfl | hy'
        · exact le_trans hB (le_of_not_lt hd)
        · exact hC y hy'

theorem pickFold_first (origin : Int) :
    ∀ (l : List (Nat × Elevator)) (c : Nat × Elevator),
      List.Pairwise (fun a b => a.1 < b.1) (c :: l) →
      ∀ x ∈ c :: l,
        floorDist x.2 origin = floorDist (pickFold origin c l).2 origin →
        (pickFold origin c l).1 ≤ x.1 := by
  intro l
  induction l with
  | nil =>
    intro c _ x hx _
    rcases List.mem_cons.mp hx with rfl | hx'
    · exact le_refl _
    · simp at hx'
  | cons y ys ih =>
    intro c hpw x hx htie
    rw [pickFold_cons] at htie ⊢
    by_cases hd : floorDist y.2 origin < floorDist c.2 origin
    · rw [if_pos hd] at htie ⊢
      have hpw' : List.Pairwise (fun a b => a.1 < b.1) (y :: ys) :=
        List.Pairwise.of_cons hpw
      rcases List.mem_cons.mp hx with rfl | hx'
      · have hle := (pickFold_spec origin ys y).2.1
        omega
      · exact ih y hpw' x hx' htie
    · rw [if_neg hd] at htie ⊢
      have hd' : floorDist c.2 origin ≤ floorDist y.2 origin := le_of_not_lt hd
      have hpw' : List.Pairwise (fun a b => a.1 < b.1) (c :: ys) :=
        List.Pairwise.sublist
          (List.Sublist.cons₂ c (List.sublist_cons_self y ys)) hpw
      rcases List.mem_cons.mp hx with rfl | hx'
      · rcases (pickFold_spec origin ys x).1 with heq | ⟨_, hlt⟩
        · rw [heq]
        · omega
      · rcases List.mem_cons.mp hx' with rfl | hx''
        · rcases (pickFold_spec origin ys c).1 with heq | ⟨_, hlt⟩
          · rw [heq]
            have := List.rel_of_pairwise_cons hpw (List.mem_cons_self x ys)
            omega
          · omega
        · exact ih c hpw' x (List.mem_cons_of_mem c hx'') htie

theorem pairwise_fst_lt_enumFrom {α : Type _} (l : List α) :
    ∀ n, List.Pairwise (fun a b => a.1 < b.1) (l.enumFrom n) := by
  induction l with
  | nil => intro n; exact List.Pairwise.nil
  | cons x xs ih =>
    intro n
    refine List.Pairwise.cons ?_ (ih (n + 1))
    intro y hy
    obtain ⟨i, a⟩ := y
    have := (List.mem_enumFrom hy).1
    dsimp only
    omega

theorem pairwise_fst_lt_enum {α : Type _} (l : List α) :
    List.Pairwise (fun a b => a.1 < b.1) l.enum :=
  pairwise_fst_lt_enumFrom l 0

theorem pickElevatorIdx_none (es : List Elevator) (o : Int)
    (h : pickElevatorIdx es o = none) : ∀ e ∈ es, e.is_full = true := by
  unfold pickElevatorIdx at h
  split at h
  · rename_i hnil
    intro e he
    by_contra hfull
    obtain ⟨i, hi⟩ := List.mem_iff_get?.mp he
    have h1 : (i, e) ∈ es.enum := List.mem_enum_iff_get?.mpr hi
    have h2 : (i, e) ∈ es.enum.filter (fun x => !x.2.is_full) :=
      List.mem_filter.mpr ⟨h1, by simp_all⟩
    rw [hnil] at h2
    simp at h2
  · simp at h

theorem pickElevatorIdx_some (es : List Elevator) (o : Int) (i : Nat)
    (h : pickElevatorIdx es o = some i) :
    ∃ best, es.get? i = some best ∧ best.is_full = false ∧
      ∀ j e', es.get? j = some e' → e'.is_full = false →
        floorDist best o ≤ floorDist e' o ∧
        (floorDist e' o = floorDist best o → i ≤ j) := by
  unfold pickElevatorIdx at h
  split at h
  · simp at h
  · rename_i c l hcl
    simp only [Option.some.injEq] at h
    have hspec := pickFold_spec o l c
    have hb_mem : pickFold o c l ∈ c :: l := by
      rcases hspec.1 with heq | ⟨hm, _⟩
      · rw [heq]; exact List.mem_cons_self c l
      · exact List.mem_cons_of_mem _ hm
    have hb_filt := List.mem_filter.mp (hcl ▸ hb_mem)
    have hb_enum : es.get? (pickFold o c l).1 = some (pickFold o c l).2 :=
      List.mem_enum_iff_get?.mp hb_filt.1
    refine ⟨(pickFold o c l).2, by rw [← h]; exact hb_enum, by simpa using hb_filt.2, ?_⟩
    intro j e' hj hfull
    have hje : (j, e') ∈ es.enum := List.mem_enum_iff_get?.mpr hj
    have hjf : ((j, e') : Nat × Elevator) ∈ c :: l := by
      rw [← hcl]
      exact List.mem_filter.mpr ⟨hje, by simp [hfull]⟩
    constructor
    · rcases List.mem_cons.mp hjf with heq | hm
      · have hc2 : floorDist c.2 o = floorDist e' o := by rw [← heq]
        rw [← hc2]
        exact hspec.2.1
      · exact hspec.2.2 (j, e') hm
    · intro htie
      have hpw : List.Pairwise (fun a b => a.1 < b.1) (c :: l) := by
        rw [← hcl]
        exact List.Pairwise.sublist (List.filter_sublist _) (pairwise_fst_lt_enum es)
      have hfirst := pickFold_first o l c hpw (j, e') hjf htie
      rw [← h]
      exact hfirst

/-- The elevator attributes the dispatcher's choice depends on (besides the
fleet position): id, fullness, current floor. -/
def elevKey (e : Elevator) : Nat × Bool × Int := (e.id, e.is_full, e.current_floor)

/-- Position together with the distance key used by the fold. -/
def distKey (o : Int) (x : Nat × Elevator) : Nat × Int := (x.1, floorDist x.2 o)

theorem set_get?_eq {α : Type _} : ∀ (l : List α) (i : Nat) (a : α),
    l.get? i = some a → l.set i a = l := by
  intro l
  induction l with
  | nil => intro i a h; simp at h
  | cons x xs ih =>
    intro i a h
    cases i with
    | zero =>
      simp only [List.get?] at h
      cases h
      rfl
    | succ n =>
      simp only [List.get?] at h
      show x :: xs.set n a = x :: xs
      rw [ih n a h]

theorem enqueue_elevKey (e : Elevator) (t : Int) (force : Bool) :
    elevKey (e.enqueue_stop t force) = elevKey e := by
  unfold Elevator.enqueue_stop
  repeat' split
  all_goals rfl

theorem pickFold_congr (o : Int) :
    ∀ (l1 l2 : List (Nat × Elevator)) (c1 c2 : Nat × Elevator),
      distKey o c1 = distKey o c2 → l1.map (distKey o) = l2.map (distKey o) →
      (pickFold o c1 l1).1 = (pickFold o c2 l2).1 := by
  intro l1
  induction l1 with
  | nil =>
    intro l2 c1 c2 hc hl
    cases l2 with
    | nil => exact congrArg (fun p : Nat × Int => p.1) hc
    | cons y ys => simp at hl
  | cons x1 xs1 ih =>
    intro l2 c1 c2 hc hl
    cases l2 with
    | nil => simp at hl
    | cons x2 xs2 =>
      simp only [List.map_cons, List.cons.injEq] at hl
      obtain ⟨hx, hxs⟩ := hl
      rw [pickFold_cons, pickFold_cons]
      have hdx : floorDist x1.2 o = floorDist x2.2 o := congrArg Prod.snd hx
      have hdc : floorDist c1.2 o = floorDist c2.2 o := congrArg Prod.snd hc
      by_cases hd : floorDist x1.2 o < floorDist c1.2 o
      · rw [if_pos hd, if_pos (by rw [← hdx, ← hdc]; exact hd)]
        exact ih xs2 x1 x2 hx hxs
      · rw [if_neg hd, if_neg (by rw [← hdx, ← hdc]; exact hd)]
        exact ih xs2 c1 c2 hc hxs

theorem candsKey_congr (o : Int) :
    ∀ (es1 es2 : List Elevator) (n : Nat),
      es1.map elevKey = es2.map elevKey →
      ((es1.enumFrom n).filter (fun x => !x.2.is_full)).map (distKey o)
        = ((es2.enumFrom n).filter (fun x => !x.2.is_full)).map (distKey o) := by
  intro es1
  induction es1 with
  | nil =>
    intro es2 n h
    cases es2 with
    | nil => rfl
    | cons y ys => simp at h
  | cons e1 t1 ih =>
    intro es2 n h
    cases es2 with
    | nil => simp at h
    | cons e2 t2 =>
      simp only [List.map_cons, List.cons.injEq] at h
      obtain ⟨he, ht⟩ := h
      have hfull : e1.is_full = e2.is_full := congrArg (fun k => k.2.1) he
      have hfl : e1.current_floor = e2.current_floor := congrArg (fun k => k.2.2) he
      rw [List.enumFrom, List.enumFrom, List.filter_cons, List.filter_cons]
      by_cases hf : e1.is_full
      · rw [if_neg (by simp [hf]), if_neg (by simp [← hfull, hf])]
        exact ih t2 (n + 1) ht
      · rw [if_pos (by simp [hf]), if_pos (by simp [← hfull]; simpa using hf)]
        rw [List.map_cons, List.map_cons, ih t2 (n + 1) ht]
        have : distKey o (n, e1) = distKey o (n, e2) := by
          unfold distKey floorDist
          dsimp only
          rw [hfl]
        rw [this]

theorem pick_congr (o : Int) (es1 es2 : List Elevator)
    (h : es1.map elevKey = es2.map elevKey) :
    pickElevatorIdx es1 o = pickElevatorIdx es2 o := by
  unfold pickElevatorIdx
  have hc := candsKey_congr o es1 es2 0 h
  unfold List.enum
  cases h1 : (es1.enumFrom 0).filter (fun x => !x.2.is_full) with
  | nil =>
    cases h2 : (es2.enumFrom 0).filter (fun x => !x.2.is_full) with
    | nil => rfl
    | cons c2 l2 =>
      rw [h1, h2] at hc
      simp at hc
  | cons c1 l1 =>
    cases h2 : (es2.enumFrom 0).filter (fun x => !x.2.is_full) with
    | nil =>
      rw [h1, h2] at hc
      simp at hc
    | cons c2 l2 =>
      rw [h1, h2] at hc
      simp only [List.map_cons, List.cons.injEq] at hc
      exact congrArg some (pickFold_congr o l1 l2 c1 c2 hc.1 hc.2)

theorem find?_map_upd_ne {β : Type _} (idOf : β → Nat) (g : β → β)
    (hid : ∀ b, idOf (g b) = idOf b) (pid x : Nat) (hne : x ≠ pid) :
    ∀ (l : List β),
      (l.map (fun b => if idOf b = pid then g b else b)).find? (fun b => idOf b == x)
        = l.find? (fun b => idOf b == x) := by
  intro l
  induction l with
  | nil => rfl
  | cons b bs ih =>
    rw [List.map_cons, List.find?_cons, List.find?_cons]
    by_cases hb : idOf b = pid
    · rw [if_pos hb]
      have h1 : (idOf (g b) == x) = false := by
        rw [hid b, hb]
        simp [Ne.symm hne]
      have h2 : (idOf b == x) = false := by
        rw [hb]
        simp [Ne.symm hne]
      rw [h1, h2]
      exact ih
    · rw [if_neg hb]
      cases hbe : (idOf b == x) with
      | true => rfl
      | false => exact ih

theorem find?_map_upd_eq {β : Type _} (idOf : β → Nat) (g : β → β)
    (hid : ∀ b, idOf (g b) = idOf b) (pid : Nat) :
    ∀ (l : List β),
      (l.map (fun b => if idOf b = pid then g b else b)).find? (fun b => idOf b == pid)
        = (l.find? (fun b => idOf b == pid)).map g := by
  intro l
  induction l with
  | nil => rfl
  | cons b bs ih =>
    rw [List.map_cons, List.find?_cons, List.find?_cons]
    by_cases hb : idOf b = pid
    · rw [if_pos hb]
      have h1 : (idOf (g b) == pid) = true := by
        rw [hid b, hb]
        simp
      have h2 : (idOf b == pid) = true := by
        rw [hb]
        simp
      rw [h1, h2]
      rfl
    · rw [if_neg hb]
      have h2 : (idOf b == pid) = false := by simp [hb]
      rw [h2]
      exact ih

theorem findPassenger_update_ne (s : LiftSimEnvironment) (pid x : Nat)
    (f : Passenger → Passenger) (hid : ∀ q, (f q).id = q.id) (hne : x ≠ pid) :
    (s.updatePassenger pid f).findPassenger x = s.findPassenger x := by
  unfold LiftSimEnvironment.updatePassenger LiftSimEnvironment.findPassenger
  exact find?_map_upd_ne (fun q => q.id) f hid pid x hne s.passengers

theorem findPassenger_update_eq (s : LiftSimEnvironment) (pid : Nat)
    (f : Passenger → Passenger) (hid : ∀ q, (f q).id = q.id) :
    (s.updatePassenger pid f).findPassenger pid = (s.findPassenger pid).map f := by
  unfold LiftSimEnvironment.updatePassenger LiftSimEnvironment.findPassenger
  exact find?_map_upd_eq (fun q => q.id) f hid pid s.passengers

theorem find?_id_of_mem_nodup {β : Type _} (idOf : β → Nat) :
    ∀ (l : List β) (p : β), (l.map idOf).Nodup → p ∈ l →
      l.find? (fun q => idOf q == idOf p) = some p := by
  intro l
  induction l with
  | nil => intro p _ hp; simp at hp
  | cons q qs ih =>
    intro p hnd hp
    rw [List.map_cons, List.nodup_cons] at hnd
    rw [List.find?_cons]
    rcases List.mem_cons.mp hp with rfl | hp'
    · simp
    · have hne : idOf q ≠ idOf p :=
        fun h => hnd.1 (h ▸ List.mem_map.mpr ⟨p, hp', rfl⟩)
      have hqp : (idOf q == idOf p) = false := by simp [hne]
      rw [hqp]
      exact ih p hnd.2 hp'

theorem find_of_mem_nodup (s : LiftSimEnvironment) (p : Passenger)
    (hnd : (s.passengers.map (fun q => q.id)).Nodup) (hp : p ∈ s.passengers) :
    s.findPassenger p.id = some p := by
  unfold LiftSimEnvironment.findPassenger
  exact find?_id_of_mem_nodup (fun q => q.id) s.passengers p hnd hp

theorem enqueue_mem_self (e : Elevator) (t : Int) (h : e.is_full = false) :
    t ∈ (e.enqueue_stop t false).target_queue := by
  unfold Elevator.enqueue_stop
  rw [if_neg (by simp [h])]
  split
  · rename_i hmem
    exact hmem
  · simp

theorem enqueue_queue_mono (e : Elevator) (t x : Int) (force : Bool)
    (hx : x ∈ e.target_queue) : x ∈ (e.enqueue_stop t force).target_queue := by
  unfold Elevator.enqueue_stop
  repeat' split
  all_goals simp [hx]

theorem assignPassenger_find_ne (u : LiftSimEnvironment) (pid x : Nat) (hne : x ≠ pid) :
    (assignPassenger u pid).findPassenger x = u.findPassenger x := by
  unfold assignPassenger
  cases hfp : u.findPassenger pid with
  | none => rfl
  | some p =>
    dsimp only
    split
    · rfl
    · cases hpick : pickElevatorIdx u.elevators p.origin_floor with
      | none => rfl
      | some i =>
        dsimp only
        cases hget : u.elevators.get? i with
        | none => rfl
        | some best =>
          dsimp only
          split
          · exact findPassenger_update_ne u pid x _ (fun q => rfl) hne
          · exact findPassenger_update_ne u pid x _ (fun q => rfl) hne

theorem assignPassenger_elevKey (u : LiftSimEnvironment) (pid : Nat) :
    (assignPassenger u pid).elevators.map elevKey = u.elevators.map elevKey := by
  unfold assignPassenger
  cases hfp : u.findPassenger pid with
  | none => rfl
  | some p =>
    dsimp only
    split
    · rfl
    · cases hpick : pickElevatorIdx u.elevators p.origin_floor with
      | none => rfl
      | some i =>
        dsimp only
        cases hget : u.elevators.get? i with
        | none => rfl
        | some best =>
          dsimp only
          split
          · rfl
          · show ((u.elevators.set i
              (best.enqueue_stop p.origin_floor false)).map elevKey)
              = u.elevators.map elevKey
            rw [List.map_set, enqueue_elevKey]
            apply set_get?_eq
            rw [List.get?_map, hget]
            rfl

theorem assignPassenger_queue_mono (u : LiftSimEnvironment) (pid : Nat) (j : Nat)
    (e : Elevator) (x : Int) (hget : u.elevators.get? j = some e)
    (hx : x ∈ e.target_queue) :
    ∃ e', (assignPassenger u pid).elevators.get? j = some e' ∧ x ∈ e'.target_queue := by
  unfold assignPassenger
  cases hfp : u.findPassenger pid with
  | none => exact ⟨e, hget, hx⟩
  | some p =>
    dsimp only
    split
    · exact ⟨e, hget, hx⟩
    · cases hpick : pickElevatorIdx u.elevators p.origin_floor with
      | none => exact ⟨e, hget, hx⟩
      | some i =>
        dsimp only
        cases hget2 : u.elevators.get? i with
        | none => exact ⟨e, hget, hx⟩
        | some best =>
          dsimp only
          split
          · exact ⟨e, hget, hx⟩
          · by_cases hij : i = j
            · subst hij
              have hbe : best = e := by
                rw [hget] at hget2
                exact ((Option.some.injEq _ _).mp hget2).symm
              refine ⟨best.enqueue_stop p.origin_floor false, ?_, ?_⟩
              · show (u.elevators.set i (best.enqueue_stop p.origin_floor false)).get? i
                  = some (best.enqueue_stop p.origin_floor false)
                rw [List.get?_set_eq]
                rw [hget2]
                rfl
              · exact enqueue_queue_mono best _ x false (hbe ▸ hx)
            · refine ⟨e, ?_, hx⟩
              show (u.elevators.set i (best.enqueue_stop p.origin_floor false)).get? j
                = some e
              rw [List.get?_set_ne _ _ hij]
              exact hget

theorem assign_cons (u : LiftSimEnvironment) (pid : Nat) (rest : List Nat) :
    ETADispatcher.assign u (pid :: rest)
      = ETADispatcher.assign (assignPassenger u pid) rest := rfl

theorem assignPassenger_spec (u : LiftSimEnvironment) (p : Passenger)
    (hfp : u.findPassenger p.id = some p) (hun : p.assigned_elevator = none) :
    (pickElevatorIdx u.elevators p.origin_floor = none → assignPassenger u p.id = u) ∧
    (∀ i, pickElevatorIdx u.elevators p.origin_floor = some i →
      ∃ best, u.elevators.get? i = some best ∧ best.is_full = false ∧
        (assignPassenger u p.id).findPassenger p.id
          = some { p with assigned_elevator := some best.id } ∧
        ∃ e2, (assignPassenger u p.id).elevators.get? i = some e2 ∧
          p.origin_floor ∈ e2.target_queue) := by
  constructor
  · intro hnone
    unfold assignPassenger
    rw [hfp]
    dsimp only
    rw [if_neg (by simp [hun]), hnone]
  · intro i hpick
    obtain ⟨best, hget, hfull, _⟩ :=
      pickElevatorIdx_some u.elevators p.origin_floor i hpick
    have hres : assignPassenger u p.id
        = (u.updatePassenger p.id
            (fun q => { q with assigned_elevator := some best.id })).setElev
              i (best.enqueue_stop p.origin_floor false) := by
      unfold assignPassenger
      rw [hfp]
      dsimp only
      rw [if_neg (by simp [hun]), hpick]
      dsimp only
      rw [hget]
      dsimp only
      rw [if_neg (by simp [hfull])]
    refine ⟨best, hget, hfull, ?_, ?_⟩
    · rw [hres]
      show (u.updatePassenger p.id
          (fun q => { q with assigned_elevator := some best.id })).findPassenger p.id
        = some { p with assigned_elevator := some best.id }
      rw [findPassenger_update_eq u p.id
        (fun q => { q with assigned_elevator := some best.id }) (fun q => rfl), hfp]
      rfl
    · rw [hres]
      refine ⟨best.enqueue_stop p.origin_floor false, ?_,
        enqueue_mem_self best _ hfull⟩
      show (u.elevators.set i (best.enqueue_stop p.origin_floor false)).get? i
        = some (best.enqueue_stop p.origin_floor false)
      rw [List.get?_set_eq, hget]
      rfl

theorem assign_fold_spec (s₀ : LiftSimEnvironment) :
    ∀ (ids : List Nat) (u : LiftSimEnvironment),
      ids.Nodup →
      u.elevators.map elevKey = s₀.elevators.map elevKey →
      (∀ x ∈ ids, u.findPassenger x = s₀.findPassenger x) →
      (ETADispatcher.assign u ids).elevators.map elevKey
          = s₀.elevators.map elevKey ∧
      (∀ x, x ∉ ids →
        (ETADispatcher.assign u ids).findPassenger x = u.findPassenger x) ∧
      (∀ j e x, u.elevators.get? j = some e → x ∈ e.target_queue →
        ∃ e', (ETADispatcher.assign u ids).elevators.get? j = some e' ∧
          x ∈ e'.target_queue) ∧
      (∀ pid ∈ ids, ∀ p, s₀.findPassenger pid = some p → p.id = pid →
        p.assigned_elevator = none →
        ((pickElevatorIdx s₀.elevators p.origin_floor = none →
           (ETADispatcher.assign u ids).findPassenger pid = some p) ∧
         (∀ i, pickElevatorIdx s₀.elevators p.origin_floor = some i →
           ∃ best, s₀.elevators.get? i = some best ∧
             (ETADispatcher.assign u ids).findPassenger pid
               = some { p with assigned_elevator := some best.id } ∧
             ∃ e2, (ETADispatcher.assign u ids).elevators.get? i = some e2 ∧
               p.origin_floor ∈ e2.target_queue))) := by
  intro ids
  induction ids with
  | nil =>
    intro u _ hkey _
    exact ⟨hkey, fun x _ => rfl, fun j e x hj hx => ⟨e, hj, hx⟩, by simp⟩
  | cons pid rest ih =>
    intro u hnd hkey hfind
    obtain ⟨hpid_rest, hnd'⟩ := List.nodup_cons.mp hnd
    have hkey' : (assignPassenger u pid).elevators.map elevKey
        = s₀.elevators.map elevKey := by
      rw [assignPassenger_elevKey]
      exact hkey
    have hfind' : ∀ x ∈ rest,
        (assignPassenger u pid).findPassenger x = s₀.findPassenger x := by
      intro x hx
      rw [assignPassenger_find_ne u pid x (fun h => hpid_rest (h ▸ hx))]
      exact hfind x (List.mem_cons_of_mem _ hx)
    obtain ⟨ihkey, ihfind, ihq, ihtarget⟩ := ih (assignPassenger u pid) hnd' hkey' hfind'
    rw [assign_cons]
    refine ⟨ihkey, ?_, ?_, ?_⟩
    · intro x hx
      rw [ihfind x (fun hxr => hx (List.mem_cons_of_mem _ hxr)),
        assignPassenger_find_ne u pid x (fun h => hx (h ▸ List.mem_cons_self _ _))]
    · intro j e x hj hx
      obtain ⟨e1, hj1, hx1⟩ := assignPassenger_queue_mono u pid j e x hj hx
      exact ihq j e1 x hj1 hx1
    · intro pid' hmem p hfp0 hpidid hun
      rcases List.mem_cons.mp hmem with rfl | hmem'
      · subst hpidid
        have hfpu : u.findPassenger p.id = some p := by
          rw [hfind p.id (List.mem_cons_self _ _)]
          exact hfp0
        have hpick_eq : pickElevatorIdx u.elevators p.origin_floor
            = pickElevatorIdx s₀.elevators p.origin_floor :=
          pick_congr _ _ _ hkey
        obtain ⟨hsN, hsS⟩ := assignPassenger_spec u p hfpu hun
        constructor
        · intro hnone
          have hres := hsN (by rw [hpick_eq]; exact hnone)
          rw [ihfind p.id hpid_rest, hres, hfpu]
        · intro i hpick
          obtain ⟨best₀, hget₀, hfull₀, _⟩ :=
            pickElevatorIdx_some s₀.elevators p.origin_floor i hpick
          obtain ⟨best_u, hget_u, hfull_u, hfind_u, e2, hgete2, hmem2⟩ :=
            hsS i (by rw [hpick_eq]; exact hpick)
          have hid_eq : best_u.id = best₀.id := by
            have h1 : (u.elevators.map elevKey).get? i = some (elevKey best_u) := by
              rw [List.get?_map, hget_u]
              rfl
            have h2 : (s₀.elevators.map elevKey).get? i = some (elevKey best₀) := by
              rw [List.get?_map, hget₀]
              rfl
            rw [hkey, h2] at h1
            have := (Option.some.injEq _ _).mp h1
            exact (congrArg (fun k : Nat × Bool × Int => k.1) this).symm
          refine ⟨best₀, hget₀, ?_, ?_⟩
          · rw [ihfind p.id hpid_rest, hfind_u, hid_eq]
          · exact ihq i e2 _ hgete2 hmem2
      · exact ihtarget pid' hmem' p hfp0 hpidid hun

/-- C7: for every registered unassigned passenger handed to the reference
dispatcher (ids distinct, as the engine guarantees): if every elevator is
full, its record is untouched (assigned_elevator stays None, to be retried
later); otherwise it is assigned to the non-full elevator minimizing
|current_floor - origin_floor|, ties broken by the earliest fleet position
(which in the engine's fleet, ordered by id 1..n, is the lowest id), and
after the dispatch a stop at the passenger's origin floor sits in that
elevator's target queue. -/
theorem claim_C7 (s : LiftSimEnvironment) (p : Passenger)
    (hnd : (s.passengers.map (fun q => q.id)).Nodup)
    (hp : p ∈ s.passengers) (hun : p.assigned_elevator = none) :
    ((∀ e ∈ s.elevators, e.is_full = true) →
      s.dispatchNew.findPassenger p.id = some p) ∧
    ((∃ e ∈ s.elevators, e.is_full = false) →
      ∃ i best, pickElevatorIdx s.elevators p.origin_floor = some i ∧
        s.elevators.get? i = some best ∧ best.is_full = false ∧
        (∀ j e', s.elevators.get? j = some e' → e'.is_full = false →
          floorDist best p.origin_floor ≤ floorDist e' p.origin_floor ∧
          (floorDist e' p.origin_floor = floorDist best p.origin_floor → i ≤ j)) ∧
        s.dispatchNew.findPassenger p.id
          = some { p with assigned_elevator := some best.id } ∧
        ∃ e2, s.dispatchNew.elevators.get? i = some e2 ∧
          p.origin_floor ∈ e2.target_queue) := by
  unfold LiftSimEnvironment.dispatchNew
  have hnewnd : ((s.passengers.filter
      (fun q => q.assigned_elevator.isNone)).map (fun p => p.id)).Nodup :=
    List.Nodup.sublist (List.Sublist.map _ (List.filter_sublist _)) hnd
  have hfp0 : s.findPassenger p.id = some p := find_of_mem_nodup s p hnd hp
  have hmemids : p.id ∈ (s.passengers.filter
      (fun q => q.assigned_elevator.isNone)).map (fun p => p.id) :=
    List.mem_map.mpr ⟨p, List.mem_filter.mpr ⟨hp, by simp [hun]⟩, rfl⟩
  obtain ⟨hkey, hfindo, hq, htarget⟩ :=
    assign_fold_spec s ((s.passengers.filter
      (fun q => q.assigned_elevator.isNone)).map (fun p => p.id)) s
      hnewnd rfl (fun x _ => rfl)
  have ht := htarget p.id hmemids p hfp0 rfl hun
  constructor
  · intro hall
    cases hpick : pickElevatorIdx s.elevators p.origin_floor with
    | none => exact ht.1 hpick
    | some i =>
      obtain ⟨best, hget, hfull, _⟩ := pickElevatorIdx_some _ _ _ hpick
      have := hall best (List.get?_mem hget)
      rw [this] at hfull
      cases hfull
  · rintro ⟨e₀, he₀, hf₀⟩
    cases hpick : pickElevatorIdx s.elevators p.origin_floor with
    | none =>
      have := pickElevatorIdx_none _ _ hpick e₀ he₀
      rw [this] at hf₀
      cases hf₀
    | some i =>
      obtain ⟨best, hget, hfull, hmin⟩ := pickElevatorIdx_some _ _ _ hpick
      obtain ⟨best', hget', hfind', e2, hge2, hm2⟩ := ht.2 i hpick
      have hbb : best' = best := by
        rw [hget] at hget'
        exact ((Option.some.injEq _ _).mp hget').symm
      refine ⟨i, best, rfl, hget, hfull, hmin, ?_, ⟨e2, hge2, hm2⟩⟩
      rw [hfind', hbb]

/-- Concrete input for the C7 witness: two idle elevators at floors 1 and 5,
one unassigned passenger at floor 6. -/
def c7Passenger : Passenger :=
  { id := 1, appear_time := 0, origin_floor := 6, dest_floor := 2 }

/-- Engine state for the C7 witness. -/
def c7State : LiftSimEnvironment :=
  { config := {}
    time := 0
    passengers := [c7Passenger]
    elevators := [{ id := 1 }, { id := 2, current_floor := 5 }]
    metrics := {}
    next_passenger_id := 2
    finalized := false }

/-- Witness for C7 at the concrete input: the passenger at floor 6 is
assigned to elevator 2 (distance 1, versus 5 for elevator 1) and floor 6 is
enqueued on it. -/
theorem claim_C7_witness :
    c7State.dispatchNew.findPassenger 1
      = some { id := 1, appear_time := 0, origin_floor := 6, dest_floor := 2,
               assigned_elevator := some 2 } ∧
    pickElevatorIdx c7State.elevators 6 = some 1 := by
  obtain ⟨i, best, hpick, hget, hfull, hmin, hfind, e2, hge2, hm2⟩ :=
    (claim_C7 c7State c7Passenger (by decide) (by decide) rfl).2
      ⟨{ id := 1 }, by decide, by decide⟩
  have hp1 : pickElevatorIdx c7State.elevators c7Passenger.origin_floor = some 1 := by
    decide
  have hi : 1 = i := Option.some.inj (hp1.symm.trans hpick)
  subst hi
  have hg1 : c7State.elevators.get? 1
      = some { id := 2, current_floor := 5 } := by decide
  have hb : best = { id := 2, current_floor := 5 } :=
    (Option.some.inj (hg1.symm.trans hget)).symm
  constructor
  · have h2 : some { c7Passenger with assigned_elevator := some best.id }
        = some { id := 1, appear_time := 0, origin_floor := 6, dest_floor := 2,
                 assigned_elevator := some (2 : Nat) } := by
      rw [hb]
      rfl
    exact hfind.trans h2
  · exact hp1

/-! ### Claim C6 — stop processing: disembark before board, capacity, rejections -/

/-- The registry attributes stop processing reads (everything except
arrive_time): id, assignment, board time, origin and destination floors. -/
def passengerKey (q : Passenger) : Nat × Option Nat × Option Int × Int × Int :=
  (q.id, q.assigned_elevator, q.board_time, q.origin_floor, q.dest_floor)

/-- The drop-off test of _process_stop for one onboard id. -/
def LiftSimEnvironment.destMatch (s : LiftSimEnvironment) (cur : Int) (pid : Nat) : Bool :=
  match s.findPassenger pid with
  | some p => p.dest_floor == cur
  | none => false

theorem updatePassenger_map_key {γ : Type _} (u : LiftSimEnvironment) (pid : Nat)
    (f : Passenger → Passenger) (key : Passenger → γ)
    (hkey : ∀ q, key (f q) = key q) :
    (u.updatePassenger pid f).passengers.map key = u.passengers.map key := by
  unfold LiftSimEnvironment.updatePassenger
  dsimp only
  rw [List.map_map]
  apply List.map_congr_left
  intro q _
  by_cases hq : q.id = pid
  · simp only [Function.comp, if_pos hq]
    exact hkey q
  · simp only [Function.comp, if_neg hq]

theorem filter_map_key_congr {β γ : Type _} (key : β → γ) (pb : β → Bool)
    (hfac : ∀ b1 b2, key b1 = key b2 → pb b1 = pb b2) :
    ∀ l1 l2 : List β, l1.map key = l2.map key →
      (l1.filter pb).map key = (l2.filter pb).map key := by
  intro l1
  induction l1 with
  | nil =>
    intro l2 h
    cases l2 with
    | nil => rfl
    | cons y ys => simp at h
  | cons b bs ih =>
    intro l2 h
    cases l2 with
    | nil => simp at h
    | cons c cs =>
      simp only [List.map_cons, List.cons.injEq] at h
      obtain ⟨hb, hbs⟩ := h
      rw [List.filter_cons, List.filter_cons]
      by_cases hp : pb b
      · rw [if_pos (by simp [hp]), if_pos (by rw [← hfac b c hb]; simp [hp])]
        rw [List.map_cons, List.map_cons, hb, ih cs hbs]
      · rw [if_neg (by simp [hp]), if_neg (by rw [← hfac b c hb]; simp [hp])]
        exact ih cs hbs

theorem foldl_erase_of_nodup {α : Type _} [DecidableEq α] :
    ∀ (ds : List α) (l : List α), l.Nodup →
      ds.foldl (fun acc x => acc.erase x) l = l.filter (fun x => decide (x ∉ ds)) := by
  intro ds
  induction ds with
  | nil =>
    intro l _
    simp
  | cons d ds' ih =>
    intro l hl
    rw [List.foldl_cons, ih (l.erase d) (hl.erase d), hl.erase_eq_filter]
    rw [List.filter_filter]
    apply List.filter_congr
    intro x _
    by_cases hxd : x = d
    · simp [hxd]
    · simp [hxd]

theorem dropOne_components (i : Nat) (u : LiftSimEnvironment) (acc : List Passenger)
    (pid : Nat) (q0 : Passenger) (eC : Elevator)
    (hq0 : u.findPassenger pid = some q0) (hget : u.elevators.get? i = some eC) :
    ((dropOne i (u, acc) pid).1.elevators.get? i
        = some { eC with passengers := eC.passengers.erase pid }) ∧
    (dropOne i (u, acc) pid).1.passengers.map passengerKey
        = u.passengers.map passengerKey ∧
    (dropOne i (u, acc) pid).1.metrics.rejected = u.metrics.rejected ∧
    (dropOne i (u, acc) pid).1.time = u.time ∧
    (∀ x, x ≠ pid → (dropOne i (u, acc) pid).1.findPassenger x = u.findPassenger x) ∧
    (dropOne i (u, acc) pid).1.findPassenger pid
        = some { q0 with arrive_time := some u.time } := by
  unfold dropOne
  dsimp only
  rw [hq0]
  dsimp only
  rw [show (u.updatePassenger pid
      (fun q => { q with arrive_time := some u.time })).elevators.get? i
      = some eC from hget]
  dsimp only
  split
  · refine ⟨?_, ?_, ?_, rfl, ?_, ?_⟩
    · show (u.elevators.set i { eC with passengers := eC.passengers.erase pid }).get? i
        = some { eC with passengers := eC.passengers.erase pid }
      rw [List.get?_set_eq, hget]
      rfl
    · exact updatePassenger_map_key u pid
        (fun q => { q with arrive_time := some u.time }) passengerKey (fun q => rfl)
    · simp [MetricsCollector.record_completion]
    · intro x hx
      exact findPassenger_update_ne u pid x
        (fun q => { q with arrive_time := some u.time }) (fun q => rfl) hx
    · show (u.updatePassenger pid
          (fun q => { q with arrive_time := some u.time })).findPassenger pid
        = some { q0 with arrive_time := some u.time }
      rw [findPassenger_update_eq u pid
        (fun q => { q with arrive_time := some u.time }) (fun q => rfl), hq0]
      rfl
  · refine ⟨?_, ?_, rfl, rfl, ?_, ?_⟩
    · show (u.elevators.set i { eC with passengers := eC.passengers.erase pid }).get? i
        = some { eC with passengers := eC.passengers.erase pid }
      rw [List.get?_set_eq, hget]
      rfl
    · exact updatePassenger_map_key u pid
        (fun q => { q with arrive_time := some u.time }) passengerKey (fun q => rfl)
    · intro x hx
      exact findPassenger_update_ne u pid x
        (fun q => { q with arrive_time := some u.time }) (fun q => rfl) hx
    · show (u.updatePassenger pid
          (fun q => { q with arrive_time := some u.time })).findPassenger pid
        = some { q0 with arrive_time := some u.time }
      rw [findPassenger_update_eq u pid
        (fun q => { q with arrive_time := some u.time }) (fun q => rfl), hq0]
      rfl

theorem drop_fold_spec (i : Nat) :
    ∀ (ds : List Nat) (u : LiftSimEnvironment) (acc : List Passenger) (eC : Elevator),
      u.elevators.get? i = some eC →
      ds.Nodup →
      (∀ pid ∈ ds, (u.findPassenger pid).isSome = true) →
      (∃ e', (ds.foldl (dropOne i) (u, acc)).1.elevators.get? i = some e' ∧
        e'.passengers = ds.foldl (fun l x => l.erase x) eC.passengers ∧
        e'.capacity = eC.capacity ∧ e'.current_floor = eC.current_floor ∧
        e'.target_queue = eC.target_queue) ∧
      (ds.foldl (dropOne i) (u, acc)).1.passengers.map passengerKey
          = u.passengers.map passengerKey ∧
      (ds.foldl (dropOne i) (u, acc)).1.metrics.rejected = u.metrics.rejected ∧
      (ds.foldl (dropOne i) (u, acc)).1.time = u.time ∧
      (∀ x, x ∉ ds → (ds.foldl (dropOne i) (u, acc)).1.findPassenger x
          = u.findPassenger x) ∧
      (∀ pid ∈ ds, ∃ q', (ds.foldl (dropOne i) (u, acc)).1.findPassenger pid
          = some q' ∧ q'.arrive_time = some u.time) := by
  intro ds
  induction ds with
  | nil =>
    intro u acc eC hget _ _
    exact ⟨⟨eC, hget, rfl, rfl, rfl, rfl⟩, rfl, rfl, rfl, fun x _ => rfl, by simp⟩
  | cons pid rest ih =>
    intro u acc eC hget hnd hsome
    obtain ⟨hpid_rest, hnd'⟩ := List.nodup_cons.mp hnd
    obtain ⟨q0, hq0⟩ := Option.isSome_iff_exists.mp
      (hsome pid (List.mem_cons_self _ _))
    obtain ⟨hcE, hcK, hcR, hcT, hcN, hcP⟩ :=
      dropOne_components i u acc pid q0 eC hq0 hget
    rw [List.foldl_cons]
    have hsome' : ∀ pid' ∈ rest,
        ((dropOne i (u, acc) pid).1.findPassenger pid').isSome = true := by
      intro pid' hp'
      rw [hcN pid' (fun h => hpid_rest (h ▸ hp'))]
      exact hsome pid' (List.mem_cons_of_mem _ hp')
    have hpair : dropOne i (u, acc) pid
        = ((dropOne i (u, acc) pid).1, (dropOne i (u, acc) pid).2) := rfl
    rw [hpair]
    obtain ⟨⟨e', hie, hep, hec, hef, heq⟩, ihK, ihR, ihT, ihN, ihP⟩ :=
      ih (dropOne i (u, acc) pid).1 (dropOne i (u, acc) pid).2
        { eC with passengers := eC.passengers.erase pid } hcE hnd' hsome'
    refine ⟨⟨e', hie, ?_, hec, hef, heq⟩, ihK.trans hcK, ihR.trans hcR,
      ihT.trans hcT, ?_, ?_⟩
    · rw [hep, List.foldl_cons]
    · intro x hx
      rw [ihN x (fun h => hx (List.mem_cons_of_mem _ h)),
        hcN x (fun h => hx (h ▸ List.mem_cons_self _ _))]
    · intro pid' hp'
      rcases List.mem_cons.mp hp' with rfl | hp''
      · refine ⟨{ q0 with arrive_time := some u.time }, ?_, rfl⟩
        rw [ihN pid' hpid_rest, hcP]
      · obtain ⟨q', hq', ha'⟩ := ihP pid' hp''
        exact ⟨q', hq', by rw [ha', hcT]⟩

theorem enqueue_passengers (e : Elevator) (t : Int) (force : Bool) :
    (e.enqueue_stop t force).passengers = e.passengers := by
  unfold Elevator.enqueue_stop
  repeat' split
  all_goals rfl

theorem enqueue_capacity (e : Elevator) (t : Int) (force : Bool) :
    (e.enqueue_stop t force).capacity = e.capacity := by
  unfold Elevator.enqueue_stop
  repeat' split
  all_goals rfl

theorem pickupOne_full_components (i : Nat) (u : LiftSimEnvironment)
    (acc : List Passenger) (p : Passenger) (eC : Elevator)
    (hget : u.elevators.get? i = some eC) (hfull : eC.is_full = true) :
    (pickupOne i (u, acc) p).1.elevators = u.elevators ∧
    (pickupOne i (u, acc) p).1.metrics.rejected = u.metrics.rejected + 1 ∧
    (pickupOne i (u, acc) p).1.time = u.time ∧
    (∀ x, x ≠ p.id →
      (pickupOne i (u, acc) p).1.findPassenger x = u.findPassenger x) ∧
    (pickupOne i (u, acc) p).1.findPassenger p.id
      = (u.findPassenger p.id).map
          (fun q => { q with assigned_elevator := none }) := by
  unfold pickupOne
  dsimp only
  rw [hget]
  dsimp only
  rw [if_pos hfull]
  refine ⟨rfl, by simp [MetricsCollector.record_rejection], rfl, ?_, ?_⟩
  · intro x hx
    exact findPassenger_update_ne u p.id x
      (fun q => { q with assigned_elevator := none }) (fun q => rfl) hx
  · exact findPassenger_update_eq u p.id
      (fun q => { q with assigned_elevator := none }) (fun q => rfl)

theorem pickupOne_notfull_components (i : Nat) (u : LiftSimEnvironment)
    (acc : List Passenger) (p : Passenger) (eC : Elevator)
    (hget : u.elevators.get? i = some eC) (hfull : eC.is_full = false) :
    (∃ e2, (pickupOne i (u, acc) p).1.elevators.get? i = some e2 ∧
      e2.passengers = eC.passengers ++ [p.id] ∧ e2.capacity = eC.capacity) ∧
    (pickupOne i (u, acc) p).1.metrics.rejected = u.metrics.rejected ∧
    (pickupOne i (u, acc) p).1.time = u.time ∧
    (∀ x, x ≠ p.id →
      (pickupOne i (u, acc) p).1.findPassenger x = u.findPassenger x) ∧
    (pickupOne i (u, acc) p).1.findPassenger p.id
      = (u.findPassenger p.id).map
          (fun q => { q with board_time := some u.time }) := by
  unfold pickupOne
  dsimp only
  rw [hget]
  dsimp only
  rw [if_neg (by simp [hfull])]
  dsimp only
  have hset1 : ((u.updatePassenger p.id
      (fun q => { q with board_time := some u.time })).setElev i
        { eC with passengers := eC.passengers ++ [p.id] }).elevators.get? i
      = some { eC with passengers := eC.passengers ++ [p.id] } := by
    show (u.elevators.set i { eC with passengers := eC.passengers ++ [p.id] }).get? i
      = some { eC with passengers := eC.passengers ++ [p.id] }
    rw [List.get?_set_eq, hget]
    rfl
  rw [hset1]
  dsimp only
  refine ⟨⟨({ eC with passengers := eC.passengers ++ [p.id] } :
      Elevator).enqueue_stop p.dest_floor false, ?_, ?_, ?_⟩, rfl, rfl, ?_, ?_⟩
  · show ((u.elevators.set i { eC with passengers := eC.passengers ++ [p.id] }).set i
        (({ eC with passengers := eC.passengers ++ [p.id] } :
          Elevator).enqueue_stop p.dest_floor false)).get? i = _
    rw [List.get?_set_eq, List.get?_set_eq, hget]
    rfl
  · rw [enqueue_passengers]
  · rw [enqueue_capacity]
  · intro x hx
    exact findPassenger_update_ne u p.id x
      (fun q => { q with board_time := some u.time }) (fun q => rfl) hx
  · exact findPassenger_update_eq u p.id
      (fun q => { q with board_time := some u.time }) (fun q => rfl)

theorem pickup_fold_spec (i : Nat) :
    ∀ (ws : List Passenger) (u : LiftSimEnvironment) (acc : List Passenger)
      (eC : Elevator),
      u.elevators.get? i = some eC →
      (ws.map (fun q => q.id)).Nodup →
      (∀ q ∈ ws, u.findPassenger q.id = some q ∧ q.board_time = none) →
      (∃ e', (ws.foldl (pickupOne i) (u, acc)).1.elevators.get? i = some e' ∧
        e'.passengers = eC.passengers ++
          ((ws.take (min ws.length
            ((eC.capacity - (eC.passengers.length : Int)).toNat))).map
              (fun q => q.id)) ∧
        e'.capacity = eC.capacity) ∧
      (ws.foldl (pickupOne i) (u, acc)).1.metrics.rejected
        = u.metrics.rejected + (ws.length - min ws.length
            ((eC.capacity - (eC.passengers.length : Int)).toNat)) ∧
      (ws.foldl (pickupOne i) (u, acc)).1.time = u.time ∧
      (∀ x, x ∉ ws.map (fun q => q.id) →
        (ws.foldl (pickupOne i) (u, acc)).1.findPassenger x = u.findPassenger x) ∧
      (∀ q ∈ ws.take (min ws.length
          ((eC.capacity - (eC.passengers.length : Int)).toNat)),
        ∃ q', (ws.foldl (pickupOne i) (u, acc)).1.findPassenger q.id = some q' ∧
          q'.board_time = some u.time) ∧
      (∀ q ∈ ws.drop (min ws.length
          ((eC.capacity - (eC.passengers.length : Int)).toNat)),
        ∃ q', (ws.foldl (pickupOne i) (u, acc)).1.findPassenger q.id = some q' ∧
          q'.assigned_elevator = none ∧ q'.board_time = none) := by
  intro ws
  induction ws with
  | nil =>
    intro u acc eC hget _ _
    exact ⟨⟨eC, hget, by simp, rfl⟩, by simp, rfl, fun x _ => rfl, by simp, by simp⟩
  | cons q ws' ih =>
    intro u acc eC hget hnd hws
    rw [List.map_cons] at hnd
    obtain ⟨hqid_rest, hnd'⟩ := List.nodup_cons.mp hnd
    obtain ⟨hfq, hbq⟩ := hws q (List.mem_cons_self _ _)
    rw [List.foldl_cons]
    have hpair : pickupOne i (u, acc) q
        = ((pickupOne i (u, acc) q).1, (pickupOne i (u, acc) q).2) := rfl
    rw [hpair]
    by_cases hfb : eC.is_full
    · obtain ⟨hcE, hcR, hcT, hcN, hcP⟩ :=
        pickupOne_full_components i u acc q eC hget hfb
      have hget' : (pickupOne i (u, acc) q).1.elevators.get? i = some eC := by
        rw [hcE]
        exact hget
      have hws' : ∀ q' ∈ ws',
          (pickupOne i (u, acc) q).1.findPassenger q'.id = some q' ∧
            q'.board_time = none := by
        intro q' hq'
        refine ⟨?_, (hws q' (List.mem_cons_of_mem _ hq')).2⟩
        rw [hcN q'.id (fun h => hqid_rest (h ▸ List.mem_map.mpr ⟨q', hq', rfl⟩))]
        exact (hws q' (List.mem_cons_of_mem _ hq')).1
      obtain ⟨⟨e', hie, hep, hec⟩, ihR, ihT, ihN, ihTake, ihDrop⟩ :=
        ih (pickupOne i (u, acc) q).1 (pickupOne i (u, acc) q).2 eC hget' hnd' hws'
      have hcap : eC.capacity ≤ (eC.passengers.length : Int) := by
        simpa [Elevator.is_full] using hfb
      have hk0 : min (q :: ws').length
          ((eC.capacity - (eC.passengers.length : Int)).toNat) = 0 := by
        simp only [List.length_cons]
        omega
      have hk0' : min ws'.length
          ((eC.capacity - (eC.passengers.length : Int)).toNat) = 0 := by
        omega
      rw [hk0']  at ihR ihTake ihDrop
      rw [hk0]
      refine ⟨⟨e', hie, ?_, hec⟩, ?_, ihT.trans hcT, ?_, ?_, ?_⟩
      · rw [hep, hk0']
        simp
      · rw [ihR, hcR]
        simp only [List.length_cons]
        omega
      · intro x hx
        rw [List.map_cons] at hx
        rw [ihN x (fun h => hx (List.mem_cons_of_mem _ h)),
          hcN x (fun h => hx (h ▸ List.mem_cons_self _ _))]
      · intro q' hq'
        simp at hq'
      · intro q' hq'
        rw [List.drop_zero] at hq'
        rcases List.mem_cons.mp hq' with rfl | hq''
        · refine ⟨{ q' with assigned_elevator := none }, ?_, rfl, hbq⟩
          rw [ihN q'.id (fun h => hqid_rest (by simpa using h)), hcP, hfq]
          rfl
        · rw [← List.drop_zero ws'] at hq''
          exact ihDrop q' hq''
    · have hf : eC.is_full = false := by simpa using hfb
      obtain ⟨⟨e2, hie2, hep2, hec2⟩, hcR, hcT, hcN, hcP⟩ :=
        pickupOne_notfull_components i u acc q eC hget hf
      have hlt : (eC.passengers.length : Int) < eC.capacity := elevInv_not_full eC hf
      have hws' : ∀ q' ∈ ws',
          (pickupOne i (u, acc) q).1.findPassenger q'.id = some q' ∧
            q'.board_time = none := by
        intro q' hq'
        refine ⟨?_, (hws q' (List.mem_cons_of_mem _ hq')).2⟩
        rw [hcN q'.id (fun h => hqid_rest (h ▸ List.mem_map.mpr ⟨q', hq', rfl⟩))]
        exact (hws q' (List.mem_cons_of_mem _ hq')).1
      obtain ⟨⟨e', hie, hep, hec⟩, ihR, ihT, ihN, ihTake, ihDrop⟩ :=
        ih (pickupOne i (u, acc) q).1 (pickupOne i (u, acc) q).2 e2 hie2 hnd' hws'
      have hlen2 : (e2.passengers.length : Int) = (eC.passengers.length : Int) + 1 := by
        rw [hep2]
        simp
      have hmin_eq : min ws'.length ((e2.capacity - (e2.passengers.length : Int)).toNat)
          = min ws'.length
              ((eC.capacity - ((eC.passengers.length : Int) + 1)).toNat) := by
        rw [hec2, hlen2]
      have hk : min (q :: ws').length
          ((eC.capacity - (eC.passengers.length : Int)).toNat)
          = 1 + min ws'.length
              ((eC.capacity - ((eC.passengers.length : Int) + 1)).toNat) := by
        simp only [List.length_cons]
        omega
      rw [hmin_eq] at ihR ihTake ihDrop hep
      rw [hk]
      refine ⟨⟨e', hie, ?_, hec.trans hec2⟩, ?_, ihT.trans hcT, ?_, ?_, ?_⟩
      · rw [hep, hep2]
        rw [show (1 : Nat) + min ws'.length
            ((eC.capacity - ((eC.passengers.length : Int) + 1)).toNat)
            = (min ws'.length
              ((eC.capacity - ((eC.passengers.length : Int) + 1)).toNat)) + 1
            from by omega]
        rw [List.take_succ_cons, List.map_cons]
        simp
      · rw [ihR, hcR]
        simp only [List.length_cons]
        omega
      · intro x hx
        rw [List.map_cons] at hx
        rw [ihN x (fun h => hx (List.mem_cons_of_mem _ h)),
          hcN x (fun h => hx (h ▸ List.mem_cons_self _ _))]
      · intro q' hq'
        rw [show (1 : Nat) + min ws'.length
            ((eC.capacity - ((eC.passengers.length : Int) + 1)).toNat)
            = (min ws'.length
              ((eC.capacity - ((eC.passengers.length : Int) + 1)).toNat)) + 1
            from by omega, List.take_succ_cons] at hq'
        rcases List.mem_cons.mp hq' with rfl | hq''
        · refine ⟨{ q' with board_time := some u.time }, ?_, rfl⟩
          rw [ihN q'.id (fun h => hqid_rest (by simpa using h)), hcP, hfq]
          rfl
        · obtain ⟨q'', hq2, hb2⟩ := ihTake q' hq''
          exact ⟨q'', hq2, by rw [hb2, hcT]⟩
      · intro q' hq'
        rw [show (1 : Nat) + min ws'.length
            ((eC.capacity - ((eC.passengers.length : Int) + 1)).toNat)
            = (min ws'.length
              ((eC.capacity - ((eC.passengers.length : Int) + 1)).toNat)) + 1
            from by omega, List.drop_succ_cons] at hq'
        exact ihDrop q' hq'

/-- The pick-up test of _process_stop: assigned to this elevator, unboarded,
waiting at the current floor. -/
def waitingPred (eid : Nat) (cur : Int) (q : Passenger) : Bool :=
  q.assigned_elevator == some eid && q.board_time.isNone && q.origin_floor == cur

theorem waitingPred_key (eid : Nat) (cur : Int) (q1 q2 : Passenger)
    (h : passengerKey q1 = passengerKey q2) :
    waitingPred eid cur q1 = waitingPred eid cur q2 := by
  have h1 : q1.assigned_elevator = q2.assigned_elevator :=
    congrArg (fun k : Nat × Option Nat × Option Int × Int × Int => k.2.1) h
  have h2 : q1.board_time = q2.board_time :=
    congrArg (fun k : Nat × Option Nat × Option Int × Int × Int => k.2.2.1) h
  have h3 : q1.origin_floor = q2.origin_floor :=
    congrArg (fun k : Nat × Option Nat × Option Int × Int × Int => k.2.2.2.1) h
  unfold waitingPred
  rw [h1, h2, h3]

theorem map_id_of_map_key (l1 l2 : List Passenger)
    (h : l1.map passengerKey = l2.map passengerKey) :
    l1.map (fun q => q.id) = l2.map (fun q => q.id) := by
  have h1 : l1.map (fun q => q.id)
      = (l1.map passengerKey).map
          (fun k : Nat × Option Nat × Option Int × Int × Int => k.1) := by
    rw [List.map_map]
    rfl
  have h2 : l2.map (fun q => q.id)
      = (l2.map passengerKey).map
          (fun k : Nat × Option Nat × Option Int × Int × Int => k.1) := by
    rw [List.map_map]
    rfl
  rw [h1, h2, h]

/-- The onboard ids that stay aboard after the drop-off phase of a stop. -/
def stopRemaining (s : LiftSimEnvironment) (e : Elevator) : List Nat :=
  e.passengers.filter (fun pid => !(s.destMatch e.current_floor pid))

/-- The ids of the waiting passengers eligible to board at this stop, in
registry order. -/
def stopWaitingIds (s : LiftSimEnvironment) (e : Elevator) : List Nat :=
  (s.passengers.filter (waitingPred e.id e.current_floor)).map (fun q => q.id)

/-- How many of the eligible waiting passengers actually board: limited by
the capacity left after the drop-offs. -/
def stopBoardCount (s : LiftSimEnvironment) (e : Elevator) : Nat :=
  min (stopWaitingIds s e).length
    ((e.capacity - ((stopRemaining s e).length : Int)).toNat)

/-- C6: during stop processing at a floor, every onboard passenger whose
destination is the current floor disembarks (arrive_time set, taken out of
the car) before any boarding happens; then the waiting passengers assigned
to this elevator board in registry order exactly while spare capacity
remains — the first `stopBoardCount` of them board with board_time set to
the current time, and each of the rest is refused: one rejection is
recorded per refused passenger and its assignment is cleared to None with
board_time still unset.  In particular (witness below) with capacity 1 and
two waiting passengers, exactly one boards and the other is rejected and
unassigned. -/
theorem claim_C6 (s : LiftSimEnvironment) (i : Nat) (e : Elevator)
    (acc : List Passenger)
    (hget : s.elevators.get? i = some e)
    (hnd : (s.passengers.map (fun q => q.id)).Nodup)
    (hen : e.passengers.Nodup)
    (honb : ∀ pid ∈ e.passengers, ∃ q, s.findPassenger pid = some q ∧
      q.board_time ≠ none) :
    (∃ e', (s.processStop i acc).1.elevators.get? i = some e' ∧
      e'.passengers = stopRemaining s e
        ++ (stopWaitingIds s e).take (stopBoardCount s e) ∧
      e'.capacity = e.capacity) ∧
    (s.processStop i acc).1.metrics.rejected
      = s.metrics.rejected + ((stopWaitingIds s e).length - stopBoardCount s e) ∧
    (∀ pid ∈ (stopWaitingIds s e).take (stopBoardCount s e),
      ∃ q', (s.processStop i acc).1.findPassenger pid = some q' ∧
        q'.board_time = some s.time) ∧
    (∀ pid ∈ (stopWaitingIds s e).drop (stopBoardCount s e),
      ∃ q', (s.processStop i acc).1.findPassenger pid = some q' ∧
        q'.assigned_elevator = none ∧ q'.board_time = none) ∧
    (∀ pid ∈ e.passengers.filter (s.destMatch e.current_floor),
      (∃ q', (s.processStop i acc).1.findPassenger pid = some q' ∧
        q'.arrive_time = some s.time) ∧
      (∀ e', (s.processStop i acc).1.elevators.get? i = some e' →
        pid ∉ e'.passengers)) := by
  have hps : s.processStop i acc
      = (((e.passengers.filter (s.destMatch e.current_floor)).foldl
            (dropOne i) (s, acc)).1.passengers.filter
              (waitingPred e.id e.current_floor)).foldl (pickupOne i)
          (((e.passengers.filter (s.destMatch e.current_floor)).foldl
              (dropOne i) (s, acc)).1,
           ((e.passengers.filter (s.destMatch e.current_floor)).foldl
              (dropOne i) (s, acc)).2) := by
    unfold LiftSimEnvironment.processStop
    rw [hget]
    rfl
  rw [hps]
  have hdnd : (e.passengers.filter (s.destMatch e.current_floor)).Nodup :=
    hen.filter _
  have hdsome : ∀ pid ∈ e.passengers.filter (s.destMatch e.current_floor),
      (s.findPassenger pid).isSome = true := by
    intro pid hp
    obtain ⟨q, hq, _⟩ := honb pid (List.mem_filter.mp hp).1
    rw [hq]
    rfl
  obtain ⟨⟨e1, h1get, h1pass, h1cap, h1fl, h1q⟩, h1key, h1rej, h1time, h1find, h1arr⟩ :=
    drop_fold_spec i (e.passengers.filter (s.destMatch e.current_floor)) s acc e
      hget hdnd hdsome
  have h1rem : e1.passengers = stopRemaining s e := by
    rw [h1pass, foldl_erase_of_nodup _ e.passengers hen]
    unfold stopRemaining
    apply List.filter_congr
    intro x hx
    by_cases hd : s.destMatch e.current_floor x
    · simp [List.mem_filter, hx, hd]
    · simp [List.mem_filter, hx, hd]
  have hnd1 : ((((e.passengers.filter (s.destMatch e.current_floor)).foldl
      (dropOne i) (s, acc)).1).passengers.map (fun q => q.id)).Nodup := by
    rw [map_id_of_map_key _ _ h1key]
    exact hnd
  have hwkey : ((((e.passengers.filter (s.destMatch e.current_floor)).foldl
      (dropOne i) (s, acc)).1).passengers.filter
        (waitingPred e.id e.current_floor)).map passengerKey
      = (s.passengers.filter (waitingPred e.id e.current_floor)).map passengerKey :=
    filter_map_key_congr passengerKey (waitingPred e.id e.current_floor)
      (waitingPred_key e.id e.current_floor) _ _ h1key
  have hws_id : ((((e.passengers.filter (s.destMatch e.current_floor)).foldl
      (dropOne i) (s, acc)).1).passengers.filter
        (waitingPred e.id e.current_floor)).map (fun q => q.id)
      = stopWaitingIds s e :=
    map_id_of_map_key _ _ hwkey
  have hwnd : (((((e.passengers.filter (s.destMatch e.current_floor)).foldl
      (dropOne i) (s, acc)).1).passengers.filter
        (waitingPred e.id e.current_floor)).map (fun q => q.id)).Nodup :=
    List.Nodup.sublist (List.Sublist.map _ (List.filter_sublist _)) hnd1
  have hws : ∀ q ∈ (((e.passengers.filter (s.destMatch e.current_floor)).foldl
      (dropOne i) (s, acc)).1).passengers.filter (waitingPred e.id e.current_floor),
      (((e.passengers.filter (s.destMatch e.current_floor)).foldl
        (dropOne i) (s, acc)).1).findPassenger q.id = some q ∧
      q.board_time = none := by
    intro q hq
    obtain ⟨hq1, hq2⟩ := List.mem_filter.mp hq
    refine ⟨find_of_mem_nodup _ q hnd1 hq1, ?_⟩
    unfold waitingPred at hq2
    simp only [Bool.and_eq_true] at hq2
    exact Option.isNone_iff_eq_none.mp hq2.1.2
  obtain ⟨⟨e', hie, hep, hec⟩, hR, hT, hN, hTake, hDrop⟩ :=
    pickup_fold_spec i
      ((((e.passengers.filter (s.destMatch e.current_floor)).foldl
        (dropOne i) (s, acc)).1).passengers.filter
          (waitingPred e.id e.current_floor))
      (((e.passengers.filter (s.destMatch e.current_floor)).foldl
        (dropOne i) (s, acc)).1)
      (((e.passengers.filter (s.destMatch e.current_floor)).foldl
        (dropOne i) (s, acc)).2)
      e1 h1get hwnd hws
  have hlenws : ((((e.passengers.filter (s.destMatch e.current_floor)).foldl
      (dropOne i) (s, acc)).1).passengers.filter
        (waitingPred e.id e.current_floor)).length
      = (stopWaitingIds s e).length := by
    rw [← hws_id, List.length_map]
  have hkk : min ((((e.passengers.filter (s.destMatch e.current_floor)).foldl
      (dropOne i) (s, acc)).1).passengers.filter
        (waitingPred e.id e.current_floor)).length
      ((e1.capacity - (e1.passengers.length : Int)).toNat) = stopBoardCount s e := by
    rw [hlenws, h1cap, h1rem]
    rfl
  rw [hkk] at hep hR hTake hDrop
  have hmap_take : (((((e.passengers.filter (s.destMatch e.current_floor)).foldl
      (dropOne i) (s, acc)).1).passengers.filter
        (waitingPred e.id e.current_floor)).take (stopBoardCount s e)).map
          (fun q => q.id)
      = (stopWaitingIds s e).take (stopBoardCount s e) := by
    rw [List.map_take, hws_id]
  have hmap_drop : (((((e.passengers.filter (s.destMatch e.current_floor)).foldl
      (dropOne i) (s, acc)).1).passengers.filter
        (waitingPred e.id e.current_floor)).drop (stopBoardCount s e)).map
          (fun q => q.id)
      = (stopWaitingIds s e).drop (stopBoardCount s e) := by
    rw [List.map_drop, hws_id]
  refine ⟨⟨e', hie, ?_, hec.trans h1cap⟩, ?_, ?_, ?_, ?_⟩
  · rw [hep, h1rem, hmap_take]
  · rw [hR, h1rej, hlenws]
  · intro pid hp
    rw [← hmap_take] at hp
    obtain ⟨q, hqmem, hqid⟩ := List.mem_map.mp hp
    obtain ⟨q', hfind, hb⟩ := hTake q hqmem
    exact ⟨q', hqid ▸ hfind, by rw [hb, h1time]⟩
  · intro pid hp
    rw [← hmap_drop] at hp
    obtain ⟨q, hqmem, hqid⟩ := List.mem_map.mp hp
    obtain ⟨q', hfind, ha, hb⟩ := hDrop q hqmem
    exact ⟨q', hqid ▸ hfind, ha, hb⟩
  · intro pid hp
    have hnotw : pid ∉ stopWaitingIds s e := by
      intro hmem
      obtain ⟨qq, hqqf, hqqid⟩ := List.mem_map.mp hmem
      obtain ⟨hqq_mem, hqq_pred⟩ := List.mem_filter.mp hqqf
      obtain ⟨q0, hq0, hq0b⟩ := honb pid (List.mem_filter.mp hp).1
      have hfq : s.findPassenger pid = some qq := by
        rw [← hqqid]
        exact find_of_mem_nodup s qq hnd hqq_mem
      rw [hq0] at hfq
      have hqq0 : q0 = qq := Option.some.inj hfq
      unfold waitingPred at hqq_pred
      simp only [Bool.and_eq_true] at hqq_pred
      exact hq0b (by rw [hqq0]; exact Option.isNone_iff_eq_none.mp hqq_pred.1.2)
    constructor
    · obtain ⟨q', hfind1, harr⟩ := h1arr pid hp
      refine ⟨q', ?_, harr⟩
      rw [hN pid (by rw [hws_id]; exact hnotw)]
      exact hfind1
    · intro e2 hge2
      have he2 : e2 = e' := by
        rw [hie] at hge2
        exact Option.some.inj hge2.symm
      subst he2
      rw [hep, h1rem]
      intro hmem
      rcases List.mem_append.mp hmem with hmem1 | hmem2
      · have := (List.mem_filter.mp hmem1).2
        have hd := (List.mem_filter.mp hp).2
        rw [hd] at this
        simp at this
      · rw [hmap_take] at hmem2
        exact hnotw (List.mem_of_mem_take hmem2)

/-- Concrete input for the C6 witness: a capacity-1 car at floor 1 with two
assigned, unboarded passengers waiting there. -/
def c6State : LiftSimEnvironment :=
  { config := { elevators := 1, capacity := 1 }
    time := 0
    passengers :=
      [{ id := 1, appear_time := 0, origin_floor := 1, dest_floor := 2,
         assigned_elevator := some 1 },
       { id := 2, appear_time := 0, origin_floor := 1, dest_floor := 3,
         assigned_elevator := some 1 }]
    elevators := [{ id := 1, capacity := 1, target_queue := [1] }]
    metrics := {}
    next_passenger_id := 3
    finalized := false }

/-- Witness for C6 at the concrete input: with capacity 1 and two waiting
passengers, exactly one boards this second (board_time 0) and the other is
rejected (one rejection recorded) and unassigned, still unboarded. -/
theorem claim_C6_witness :
    (c6State.processStop 0 []).1.metrics.rejected = 1 ∧
    ((c6State.processStop 0 []).1.findPassenger 1).map (fun q => q.board_time)
      = some (some 0) ∧
    ((c6State.processStop 0 []).1.findPassenger 2).map
      (fun q => (q.assigned_elevator, q.board_time)) = some (none, none) := by
  obtain ⟨h1, h2, h3, h4, h5⟩ :=
    claim_C6 c6State 0 { id := 1, capacity := 1, target_queue := [1] } []
      (by decide) (by decide) (by decide) (by simp)
  refine ⟨?_, ?_, ?_⟩
  · rw [h2]
    rfl
  · obtain ⟨q', hf, hb⟩ := h3 1 (by decide)
    rw [hf, Option.map_some', hb]
    rfl
  · obtain ⟨q', hf, ha, hb⟩ := h4 2 (by decide)
    rw [hf, Option.map_some', ha, hb]
